import Mathlib

/-!
# X9258 digital potentiometer driver: software two-wire bus

A shallow embedding of `X9258.cpp` / `X9258.h`.  The driver bit-bangs a
two-wire bus over two pins.  Every call of a platform primitive
(`pinMode`, `digitalWriteFast`, `digitalReadFast`, `noInterrupts`,
`interrupts`) is recorded, in program order, in the `trace` of the machine
state, so that statements about line activity are statements about lists of
events.  The device on the other side of the bus is an arbitrary function from
the bus history to the level it presents on a pin.
-/

namespace X9258

/-! ## Data model -/

/-- Logic level of a pin (`LOW` = 0, `HIGH` = 1). -/
inductive Level where
  | LOW
  | HIGH
  deriving DecidableEq, Repr

/-- Direction of a pin. -/
inductive Mode where
  | INPUT
  | OUTPUT
  deriving DecidableEq, Repr

/-- The two pins of the bus: `X9258_SCL_PIN_NUM` (clock) and
`X9258_SDA_PIN_NUM` (data). -/
inductive Line where
  | SCL
  | SDA
  deriving DecidableEq, Repr

/-- One call of a platform primitive.  A `digitalRead` event carries the level
that the call returned. -/
inductive Event where
  | pinMode (pin : Line) (m : Mode)
  | digitalWrite (pin : Line) (v : Level)
  | digitalRead (pin : Line) (v : Level)
  | noInterrupts
  | interrupts
  deriving DecidableEq, Repr

/-- The device (and wiring) seen from the controller: given the history of the
bus so far, the level a read of a pin returns. -/
abbrev Device := List Event → Line → Level

/-- State of the controller object and of the host it runs on.
`device_address` is the only data member that changes; the pin directions, the
output latches and the interrupt-enable flag belong to the host. -/
structure Machine where
  device_address : Nat
  interruptsEnabled : Bool
  sclMode : Mode
  sdaMode : Mode
  sclLevel : Level
  sdaLevel : Level
  trace : List Event
  deriving DecidableEq, Repr

/-! ## Opcode constants (`X9258.h`) -/

def X9258_DEVICE_TYPE : Nat := 0x50
def X9258_READ_WIPER : Nat := 0x90
def X9258_WRITE_WIPER : Nat := 0xA0
def X9258_READ_MEMORY : Nat := 0xB0
def X9258_WRITE_MEMORY : Nat := 0xC0
def X9258_XFR_MEMORY_TO_WIPER : Nat := 0xD0
def X9258_XFR_WIPER_TO_MEMORY : Nat := 0xE0
def X9258_GLOBAL_XFR_MEMORY_TO_WIPER : Nat := 0x10
def X9258_GLOBAL_XFR_WIPER_TO_MEMORY : Nat := 0x80
def X9258_INC_DEC_WIPER : Nat := 0x20

/-! ## Platform primitives -/

/-- Modelled from the spec: the platform capability `setDirection(line,
input|output)` (Arduino `pinMode`), which is not part of the repository.  It
sets the direction of the pin and is recorded in the trace. -/
def pinMode (pin : Line) (m : Mode) (s : Machine) : Machine :=
  match pin with
  | .SCL => { s with sclMode := m, trace := s.trace ++ [Event.pinMode .SCL m] }
  | .SDA => { s with sdaMode := m, trace := s.trace ++ [Event.pinMode .SDA m] }

/-- Modelled from the spec: the platform capability `writeLevel(line,
high|low)` (`digitalWriteFast`), which is not part of the repository.  It sets
the output latch of the pin and is recorded in the trace. -/
def digitalWriteFast (pin : Line) (v : Level) (s : Machine) : Machine :=
  match pin with
  | .SCL => { s with sclLevel := v, trace := s.trace ++ [Event.digitalWrite .SCL v] }
  | .SDA => { s with sdaLevel := v, trace := s.trace ++ [Event.digitalWrite .SDA v] }

/-- Modelled from the spec: the platform capability `readLevel(line)`
(`digitalReadFast`), which is not part of the repository.  The level returned
is the one the device presents after the history so far; the read is recorded
in the trace together with that level. -/
def digitalReadFast (dev : Device) (pin : Line) (s : Machine) : Level × Machine :=
  (dev s.trace pin,
   { s with trace := s.trace ++ [Event.digitalRead pin (dev s.trace pin)] })

/-- Modelled from the spec: entering the critical section that suspends host
interruption (Arduino `noInterrupts()`), which is not part of the
repository. -/
def noInterrupts (s : Machine) : Machine :=
  { s with interruptsEnabled := false, trace := s.trace ++ [Event.noInterrupts] }

/-- Modelled from the spec: leaving the critical section (Arduino
`interrupts()`), which is not part of the repository. -/
def interrupts (s : Machine) : Machine :=
  { s with interruptsEnabled := true, trace := s.trace ++ [Event.interrupts] }

/-! ## Bit protocol (`X9258.cpp`, lines 37-129) -/

/-- Embeds `X9258::setup`. -/
def setup (s : Machine) : Machine :=
  let s := pinMode .SCL .OUTPUT s
  let s := pinMode .SDA .OUTPUT s
  let s := digitalWriteFast .SCL .LOW s
  digitalWriteFast .SDA .HIGH s

/-- Embeds `X9258::wait_for_ack`: returns `num == LOW`. -/
def wait_for_ack (dev : Device) (s : Machine) : Bool × Machine :=
  let s := pinMode .SDA .INPUT s
  let s := digitalWriteFast .SCL .HIGH s
  let r := digitalReadFast dev .SDA s
  let s := digitalWriteFast .SCL .LOW r.2
  let s := pinMode .SDA .OUTPUT s
  (decide (r.1 = Level.LOW), s)

/-- Embeds `X9258::send_clock`. -/
def send_clock (s : Machine) : Machine :=
  let s := digitalWriteFast .SCL .HIGH s
  digitalWriteFast .SCL .LOW s

/-- Embeds `X9258::send_start`. -/
def send_start (s : Machine) : Machine :=
  let s := pinMode .SCL .OUTPUT s
  let s := pinMode .SDA .OUTPUT s
  let s := digitalWriteFast .SDA .HIGH s
  let s := digitalWriteFast .SCL .HIGH s
  digitalWriteFast .SDA .LOW s

/-- Embeds `X9258::send_stop`. -/
def send_stop (s : Machine) : Machine :=
  let s := digitalWriteFast .SDA .LOW s
  let s := digitalWriteFast .SCL .HIGH s
  let s := digitalWriteFast .SDA .HIGH s
  digitalWriteFast .SCL .LOW s

/-- The loop of `X9258::send_data`:
`for (uint8_t mask = 0x80; mask; mask >>= 1) { write SDA; send_clock(); }`,
entered with the current value of `mask`. -/
def send_data_loop (data : Nat) (mask : Nat) (s : Machine) : Machine :=
  if mask = 0 then s
  else
    let s := digitalWriteFast .SDA (if data &&& mask ≠ 0 then .HIGH else .LOW) s
    let s := send_clock s
    send_data_loop data (mask >>> 1) s
termination_by mask
decreasing_by
  simp only [Nat.shiftRight_eq_div_pow, pow_one]
  omega

/-- Embeds `X9258::send_data`. -/
def send_data (dev : Device) (data : Nat) (s : Machine) : Bool × Machine :=
  let s := digitalWriteFast .SCL .LOW s
  let s := send_data_loop data 0x80 s
  wait_for_ack dev s

/-- Embeds `X9258::send_ack`. -/
def send_ack (s : Machine) : Machine :=
  let s := digitalWriteFast .SDA .LOW s
  send_clock s

/-- The loop of `X9258::recv_data`:
`for (uint8_t i = 0; i < 8; i++) { data <<= 1; data |= read; send_clock(); }`,
entered with the current values of `i` and `data` (a `uint8_t`). -/
def recv_data_loop (dev : Device) (i : Nat) (data : Nat) (s : Machine) : Nat × Machine :=
  if i < 8 then
    let data := (data <<< 1) % 256
    let r := digitalReadFast dev .SDA s
    let data := data ||| (if r.1 = Level.HIGH then 0x01 else 0x00)
    let s := send_clock r.2
    recv_data_loop dev (i + 1) data s
  else (data, s)
termination_by 8 - i

/-- Embeds `X9258::recv_data` (the `nop` has no effect on the modelled state). -/
def recv_data (dev : Device) (s : Machine) : Nat × Machine :=
  let s := pinMode .SDA .INPUT s
  let s := digitalWriteFast .SCL .LOW s
  let r := recv_data_loop dev 0 0 s
  let s := pinMode .SDA .OUTPUT r.2
  let s := send_ack s
  (r.1, s)

/-! ## Transactions (`X9258.cpp`, lines 132-218) -/

/-- Embeds `X9258::write_instruction`. -/
def write_instruction (dev : Device) (instruction : Nat) (s : Machine) : Machine :=
  let s := noInterrupts s
  let s := send_start s
  let r := send_data dev s.device_address s
  if !r.1 then send_stop r.2
  else
    let r := send_data dev instruction r.2
    if !r.1 then send_stop r.2
    else
      let s := send_stop r.2
      interrupts s

/-- Embeds `X9258::write_value`. -/
def write_value (dev : Device) (instruction : Nat) (value : Nat) (s : Machine) : Machine :=
  let s := noInterrupts s
  let s := send_start s
  let r := send_data dev s.device_address s
  if !r.1 then send_stop r.2
  else
    let r := send_data dev instruction r.2
    if !r.1 then send_stop r.2
    else
      let r := send_data dev value r.2
      if !r.1 then send_stop r.2
      else
        let s := send_stop r.2
        interrupts s

/-- Embeds `X9258::read_value`. -/
def read_value (dev : Device) (instruction : Nat) (s : Machine) : Nat × Machine :=
  let value := 0xff
  let s := noInterrupts s
  let s := send_start s
  let r := send_data dev s.device_address s
  if !r.1 then (value, send_stop r.2)
  else
    let r := send_data dev instruction r.2
    if !r.1 then (value, send_stop r.2)
    else
      let r := recv_data dev r.2
      let value := r.1
      let s := send_stop r.2
      let s := interrupts s
      (value, s)

/-! ## Public operations (`X9258.cpp`, lines 25-32 and 224-272)

Arguments are `uint8_t` in the source; the `% 256` is the conversion of the
`int` expression to the `uint8_t` parameter or member. -/

/-- Embeds `X9258::setAddress`. -/
def setAddress (dev_address : Nat) (s : Machine) : Machine :=
  { s with device_address := (X9258_DEVICE_TYPE ||| (dev_address &&& 0x0F)) % 256 }

/-- Embeds `X9258::getWiper`. -/
def getWiper (dev : Device) (wiper : Nat) (s : Machine) : Nat × Machine :=
  read_value dev ((X9258_READ_WIPER ||| (wiper &&& 0x03)) % 256) s

/-- Embeds `X9258::setWiper`. -/
def setWiper (dev : Device) (wiper value : Nat) (s : Machine) : Machine :=
  write_value dev ((X9258_WRITE_WIPER ||| (wiper &&& 0x03)) % 256) value s

/-- Embeds `X9258::getMemory`. -/
def getMemory (dev : Device) (wiper memory : Nat) (s : Machine) : Nat × Machine :=
  read_value dev ((X9258_READ_MEMORY ||| ((memory &&& 0x03) <<< 2) ||| (wiper &&& 0x03)) % 256) s

/-- Embeds `X9258::setMemory`. -/
def setMemory (dev : Device) (wiper memory value : Nat) (s : Machine) : Machine :=
  write_value dev
    ((X9258_WRITE_MEMORY ||| ((memory &&& 0x03) <<< 2) ||| (wiper &&& 0x03)) % 256) value s

/-- Embeds `X9258::xfrMemoryToWiper`. -/
def xfrMemoryToWiper (dev : Device) (wiper memory : Nat) (s : Machine) : Machine :=
  write_instruction dev
    ((X9258_XFR_MEMORY_TO_WIPER ||| ((memory &&& 0x03) <<< 2) ||| (wiper &&& 0x03)) % 256) s

/-- Embeds `X9258::xfrWiperToMemory`. -/
def xfrWiperToMemory (dev : Device) (wiper memory : Nat) (s : Machine) : Machine :=
  write_instruction dev
    ((X9258_XFR_WIPER_TO_MEMORY ||| ((memory &&& 0x03) <<< 2) ||| (wiper &&& 0x03)) % 256) s

/-- Embeds `X9258::globalXfrMemoryToWiper`. -/
def globalXfrMemoryToWiper (dev : Device) (memory : Nat) (s : Machine) : Machine :=
  write_instruction dev ((X9258_GLOBAL_XFR_MEMORY_TO_WIPER ||| ((memory &&& 0x03) <<< 2)) % 256) s

/-- Embeds `X9258::globalXfrWiperToMemory`. -/
def globalXfrWiperToMemory (dev : Device) (memory : Nat) (s : Machine) : Machine :=
  write_instruction dev ((X9258_GLOBAL_XFR_WIPER_TO_MEMORY ||| ((memory &&& 0x03) <<< 2)) % 256) s

/-- Embeds `X9258::enableIncDecWiper`. -/
def enableIncDecWiper (dev : Device) (wiper inc_when_high : Nat) (s : Machine) : Machine :=
  write_value dev ((X9258_INC_DEC_WIPER ||| (wiper &&& 0x03)) % 256) inc_when_high s

/-- Host state before the constructor runs: interrupts enabled, both pins in
their reset direction (input) with cleared output latches, nothing recorded. -/
def powerOn : Machine :=
  { device_address := 0, interruptsEnabled := true,
    sclMode := .INPUT, sdaMode := .INPUT, sclLevel := .LOW, sdaLevel := .LOW, trace := [] }

/-- Embeds `X9258::X9258(i2c_scl, i2c_sda)`: `setAddress(0)`. -/
def new : Machine := setAddress 0 powerOn

/-- Embeds `X9258::X9258(i2c_scl, i2c_sda, device_address)`. -/
def newWithAddress (device_address : Nat) : Machine := setAddress device_address powerOn

/-! ## Observations on traces

The definitions below are not part of the driver: they name the pieces of line
activity the protocol is described with, and read information off a trace. -/

/-- Level that represents a bit on the data line: high for 1, low for 0. -/
def levelOfBit (b : Bool) : Level := if b then .HIGH else .LOW

/-- Bits 7, 6, ..., 0 of a byte as levels, most significant first. -/
def bitsMSB (b : Nat) : List Level :=
  [levelOfBit (b.testBit 7), levelOfBit (b.testBit 6), levelOfBit (b.testBit 5),
   levelOfBit (b.testBit 4), levelOfBit (b.testBit 3), levelOfBit (b.testBit 2),
   levelOfBit (b.testBit 1), levelOfBit (b.testBit 0)]

/-- Start condition: both pins made outputs, data high, clock high, then data
low while the clock is high. -/
def startEvents : List Event :=
  [Event.pinMode .SCL .OUTPUT, Event.pinMode .SDA .OUTPUT,
   Event.digitalWrite .SDA .HIGH, Event.digitalWrite .SCL .HIGH,
   Event.digitalWrite .SDA .LOW]

/-- Stop condition: data low, clock high, data high while the clock is high,
then clock low. -/
def stopEvents : List Event :=
  [Event.digitalWrite .SDA .LOW, Event.digitalWrite .SCL .HIGH,
   Event.digitalWrite .SDA .HIGH, Event.digitalWrite .SCL .LOW]

/-- One clock pulse: clock high, then clock low. -/
def clockPulse : List Event :=
  [Event.digitalWrite .SCL .HIGH, Event.digitalWrite .SCL .LOW]

/-- One level written to the data line, followed by one clock pulse. -/
def bitEvents (v : Level) : List Event :=
  Event.digitalWrite .SDA v :: clockPulse

/-- The levels of a list written and clocked one after the other. -/
def bitsEvents : List Level → List Event
  | [] => []
  | v :: vs => bitEvents v ++ bitsEvents vs

/-- The eight data bits of a byte on the wire: the clock is taken low, then
each bit, most significant first, is written and clocked. -/
def dataEvents (b : Nat) : List Event :=
  Event.digitalWrite .SCL .LOW :: bitsEvents (bitsMSB b)

/-- The part of the acknowledgement clock that precedes the sample: data pin
to input, clock high. -/
def ackSetupEvents : List Event :=
  [Event.pinMode .SDA .INPUT, Event.digitalWrite .SCL .HIGH]

/-- One acknowledgement sample that reads level `a`: data pin to input, one
clock pulse with one read of the data pin while the clock is high, data pin
back to output. -/
def ackSampleEvents (a : Level) : List Event :=
  [Event.pinMode .SDA .INPUT, Event.digitalWrite .SCL .HIGH,
   Event.digitalRead .SDA a, Event.digitalWrite .SCL .LOW,
   Event.pinMode .SDA .OUTPUT]

/-- One byte sent by the controller, whose acknowledgement sample reads `a`. -/
def byteEvents (b : Nat) (a : Level) : List Event :=
  dataEvents b ++ ackSampleEvents a

/-- Level the device presents at the acknowledgement sample of byte `b`, when
the byte is sent after history `h`. -/
def ackLevel (dev : Device) (h : List Event) (b : Nat) : Level :=
  dev (h ++ (dataEvents b ++ ackSetupEvents)) .SDA

/-- One sample of the data pin that reads `v`, followed by one clock pulse. -/
def sampleEvents (v : Level) : List Event :=
  Event.digitalRead .SDA v :: clockPulse

/-- The samples of a list of levels, one after the other. -/
def samplesEvents : List Level → List Event
  | [] => []
  | v :: vs => sampleEvents v ++ samplesEvents vs

/-- The levels the device presents on the data pin at `n` successive samples,
each followed by a clock pulse, starting after history `h`. -/
def presented (dev : Device) (h : List Event) : Nat → List Level
  | 0 => []
  | n + 1 => dev h .SDA :: presented dev (h ++ sampleEvents (dev h .SDA)) n

/-- A byte received by the controller from samples `vs`: data pin to input,
clock low, the samples, data pin to output, then the acknowledgement of the
controller (data low, one clock pulse). -/
def recvEvents (vs : List Level) : List Event :=
  Event.pinMode .SDA .INPUT :: Event.digitalWrite .SCL .LOW ::
    (samplesEvents vs ++
      [Event.pinMode .SDA .OUTPUT, Event.digitalWrite .SDA .LOW,
       Event.digitalWrite .SCL .HIGH, Event.digitalWrite .SCL .LOW])

/-- Value of a sampled level as a bit: `read == HIGH ? 0x01 : 0x00`. -/
def bitOfLevel (v : Level) : Nat := if v = Level.HIGH then 0x01 else 0x00

/-- The `uint8_t` obtained from `data` by shifting in the levels `vs`, first
level first: `data <<= 1; data |= bit` for each of them. -/
def shiftIn (data : Nat) (vs : List Level) : Nat :=
  vs.foldl (fun d v => (d <<< 1) % 256 ||| bitOfLevel v) data

/-- What precedes the first sample of a received byte: data pin to input,
clock low. -/
def recvSetupEvents : List Event :=
  [Event.pinMode .SDA .INPUT, Event.digitalWrite .SCL .LOW]

/-- The events recorded between state `s` and a later state `t`. -/
def callEvents (s t : Machine) : List Event :=
  t.trace.drop s.trace.length

/-- Line activity of a list of events: the pin events, without the two
interrupt-control events. -/
def lineActivity (es : List Event) : List Event :=
  es.filter (fun e => decide (e ≠ Event.noInterrupts ∧ e ≠ Event.interrupts))

/-- The levels returned by the reads of the data pin, in order. -/
def dataReads : List Event → List Level
  | [] => []
  | Event.digitalRead .SDA v :: es => v :: dataReads es
  | _ :: es => dataReads es

/-- The levels written to the data pin, in order. -/
def dataWrites : List Event → List Level
  | [] => []
  | Event.digitalWrite .SDA v :: es => v :: dataWrites es
  | _ :: es => dataWrites es

/-- The levels written to the data pin and then latched by a clock pulse
(clock high, clock low, with nothing in between), in order. -/
def clockedBits : List Event → List Level
  | [] => []
  | Event.digitalWrite .SDA v :: Event.digitalWrite .SCL .HIGH ::
      Event.digitalWrite .SCL .LOW :: es => v :: clockedBits es
  | _ :: es => clockedBits es

/-- Each event of a trace paired with the level the clock pin was last driven
to before it, starting from clock level `scl`. -/
def withClock (scl : Level) : List Event → List (Event × Level)
  | [] => []
  | Event.digitalWrite .SCL v :: es =>
      (Event.digitalWrite .SCL v, scl) :: withClock v es
  | e :: es => (e, scl) :: withClock scl es

/-- The writes to the data pin, each with the clock level at that moment. -/
def dataWritesAt (scl : Level) (es : List Event) : List (Level × Level) :=
  (withClock scl es).filterMap
    (fun p => match p.1 with
      | Event.digitalWrite .SDA v => some (v, p.2)
      | _ => none)

/-- The reads of the data pin, each with the clock level at that moment. -/
def dataReadsAt (scl : Level) (es : List Event) : List (Level × Level) :=
  (withClock scl es).filterMap
    (fun p => match p.1 with
      | Event.digitalRead .SDA v => some (v, p.2)
      | _ => none)

/-- The transitions the controller itself emits on the two pins: changes of
direction and writes, without the reads and the interrupt-control events. -/
def driven (es : List Event) : List Event :=
  es.filter (fun e => match e with
    | Event.pinMode _ _ => true
    | Event.digitalWrite _ _ => true
    | _ => false)

/-- A device that never pulls the data line low (or no device at all): every
read returns high. -/
def absentDevice : Device := fun _ _ => .HIGH

/-- A device that pulls the data line low at every read. -/
def lowDevice : Device := fun _ _ => .LOW

/-- Number of reads recorded in a history. -/
def readCount (h : List Event) : Nat := (dataReads h).length

/-- A device that presents the levels of a script, one per read of the data
pin, and high once the script is exhausted. -/
def scriptDevice (script : List Level) : Device :=
  fun h _ => script.getD (readCount h) .HIGH

/-- A controller after construction with the default address and `setup()`. -/
def ready : Machine := setup new

/-! ## The public transaction operations as data -/

/-- The nine classes of public transaction operations. -/
inductive OpClass where
  | readWiper
  | writeWiper
  | readMemory
  | writeMemory
  | memoryToWiper
  | wiperToMemory
  | globalMemoryToWiper
  | globalWiperToMemory
  | incDecWiper
  deriving DecidableEq, Repr

/-- A call of one of the nine public transaction operations, with its
arguments. -/
inductive Op where
  | getWiper (wiper : Nat)
  | setWiper (wiper value : Nat)
  | getMemory (wiper memory : Nat)
  | setMemory (wiper memory value : Nat)
  | xfrMemoryToWiper (wiper memory : Nat)
  | xfrWiperToMemory (wiper memory : Nat)
  | globalXfrMemoryToWiper (memory : Nat)
  | globalXfrWiperToMemory (memory : Nat)
  | enableIncDecWiper (wiper inc_when_high : Nat)
  deriving DecidableEq, Repr

/-- State in which a call of a public operation returns (the value returned by
the two getters is dropped). -/
def runOp (dev : Device) (op : Op) (s : Machine) : Machine :=
  match op with
  | .getWiper w => (getWiper dev w s).2
  | .setWiper w v => setWiper dev w v s
  | .getMemory w m => (getMemory dev w m s).2
  | .setMemory w m v => setMemory dev w m v s
  | .xfrMemoryToWiper w m => xfrMemoryToWiper dev w m s
  | .xfrWiperToMemory w m => xfrWiperToMemory dev w m s
  | .globalXfrMemoryToWiper m => globalXfrMemoryToWiper dev m s
  | .globalXfrWiperToMemory m => globalXfrWiperToMemory dev m s
  | .enableIncDecWiper w x => enableIncDecWiper dev w x s

/-- State after a sequence of calls of public operations, first call first. -/
def runAll (dev : Device) : List Op → Machine → Machine
  | [], s => s
  | op :: ops, s => runAll dev ops (runOp dev op s)

/-- Class of a call. -/
def classOf : Op → OpClass
  | .getWiper _ => .readWiper
  | .setWiper _ _ => .writeWiper
  | .getMemory _ _ => .readMemory
  | .setMemory _ _ _ => .writeMemory
  | .xfrMemoryToWiper _ _ => .memoryToWiper
  | .xfrWiperToMemory _ _ => .wiperToMemory
  | .globalXfrMemoryToWiper _ => .globalMemoryToWiper
  | .globalXfrWiperToMemory _ => .globalWiperToMemory
  | .enableIncDecWiper _ _ => .incDecWiper

/-- Opcode constant of a class, as used by the public operation of that
class. -/
def opcodeOf : OpClass → Nat
  | .readWiper => X9258_READ_WIPER
  | .writeWiper => X9258_WRITE_WIPER
  | .readMemory => X9258_READ_MEMORY
  | .writeMemory => X9258_WRITE_MEMORY
  | .memoryToWiper => X9258_XFR_MEMORY_TO_WIPER
  | .wiperToMemory => X9258_XFR_WIPER_TO_MEMORY
  | .globalMemoryToWiper => X9258_GLOBAL_XFR_MEMORY_TO_WIPER
  | .globalWiperToMemory => X9258_GLOBAL_XFR_WIPER_TO_MEMORY
  | .incDecWiper => X9258_INC_DEC_WIPER

/-- Instruction byte a call hands to its transaction routine: the argument
expression of the public operation in the source, converted to `uint8_t`. -/
def instructionOf : Op → Nat
  | .getWiper w => (X9258_READ_WIPER ||| (w &&& 0x03)) % 256
  | .setWiper w _ => (X9258_WRITE_WIPER ||| (w &&& 0x03)) % 256
  | .getMemory w m => (X9258_READ_MEMORY ||| ((m &&& 0x03) <<< 2) ||| (w &&& 0x03)) % 256
  | .setMemory w m _ => (X9258_WRITE_MEMORY ||| ((m &&& 0x03) <<< 2) ||| (w &&& 0x03)) % 256
  | .xfrMemoryToWiper w m =>
      (X9258_XFR_MEMORY_TO_WIPER ||| ((m &&& 0x03) <<< 2) ||| (w &&& 0x03)) % 256
  | .xfrWiperToMemory w m =>
      (X9258_XFR_WIPER_TO_MEMORY ||| ((m &&& 0x03) <<< 2) ||| (w &&& 0x03)) % 256
  | .globalXfrMemoryToWiper m => (X9258_GLOBAL_XFR_MEMORY_TO_WIPER ||| ((m &&& 0x03) <<< 2)) % 256
  | .globalXfrWiperToMemory m => (X9258_GLOBAL_XFR_WIPER_TO_MEMORY ||| ((m &&& 0x03) <<< 2)) % 256
  | .enableIncDecWiper w _ => (X9258_INC_DEC_WIPER ||| (w &&& 0x03)) % 256

/-- State in which the transaction routine of a call returns when it is run
with instruction byte `i`: `read_value` for the getters, `write_value` for the
operations with a value, `write_instruction` for the transfers. -/
def runWith (dev : Device) (op : Op) (i : Nat) (s : Machine) : Machine :=
  match op with
  | .getWiper _ => (read_value dev i s).2
  | .setWiper _ v => write_value dev i v s
  | .getMemory _ _ => (read_value dev i s).2
  | .setMemory _ _ v => write_value dev i v s
  | .xfrMemoryToWiper _ _ => write_instruction dev i s
  | .xfrWiperToMemory _ _ => write_instruction dev i s
  | .globalXfrMemoryToWiper _ => write_instruction dev i s
  | .globalXfrWiperToMemory _ => write_instruction dev i s
  | .enableIncDecWiper _ x => write_value dev i x s

/-- Wiper argument of a call, for the operations that take one. -/
def wiperOf : Op → Option Nat
  | .getWiper w => some w
  | .setWiper w _ => some w
  | .getMemory w _ => some w
  | .setMemory w _ _ => some w
  | .xfrMemoryToWiper w _ => some w
  | .xfrWiperToMemory w _ => some w
  | .globalXfrMemoryToWiper _ => none
  | .globalXfrWiperToMemory _ => none
  | .enableIncDecWiper w _ => some w

/-- Memory argument of a call, for the operations that take one. -/
def memoryOf : Op → Option Nat
  | .getWiper _ => none
  | .setWiper _ _ => none
  | .getMemory _ m => some m
  | .setMemory _ m _ => some m
  | .xfrMemoryToWiper _ m => some m
  | .xfrWiperToMemory _ m => some m
  | .globalXfrMemoryToWiper m => some m
  | .globalXfrWiperToMemory m => some m
  | .enableIncDecWiper _ _ => none

/-- The wiper and memory indices of a call are in `0..3`. -/
def IndicesInRange (op : Op) : Prop :=
  (∀ w, wiperOf op = some w → w < 4) ∧ (∀ m, memoryOf op = some m → m < 4)

/-- Controller states that the public interface can produce: construction,
`setup()`, `setAddress` and the nine transaction operations, against any
device. -/
inductive Reachable : Machine → Prop where
  | new : Reachable new
  | newWithAddress (a : Nat) : Reachable (newWithAddress a)
  | setup {s : Machine} : Reachable s → Reachable (setup s)
  | setAddress {s : Machine} (sel : Nat) : Reachable s → Reachable (setAddress sel s)
  | runOp {s : Machine} (dev : Device) (op : Op) : Reachable s → Reachable (runOp dev op s)

/-- Directions and output latches of the two pins: clock direction, data
direction, clock level, data level. -/
def busState (s : Machine) : Mode × Mode × Level × Level :=
  (s.sclMode, s.sdaMode, s.sclLevel, s.sdaLevel)

/-- A start or stop condition on the bus. -/
inductive BusCondition where
  | start
  | stop
  deriving DecidableEq, Repr

/-- The start and stop conditions the controller produces, in order: a write
of the data pin while the clock pin is driven high is a start condition when it
takes the data pin from high to low and a stop condition when it takes it from
low to high.  `scl` and `sda` are the levels driven before the first event. -/
def busConditions (scl sda : Level) : List Event → List BusCondition
  | [] => []
  | Event.digitalWrite .SCL v :: es => busConditions v sda es
  | Event.digitalWrite .SDA v :: es =>
      (if scl = .HIGH ∧ sda = .HIGH ∧ v = .LOW then [BusCondition.start]
       else if scl = .HIGH ∧ sda = .LOW ∧ v = .HIGH then [BusCondition.stop]
       else []) ++ busConditions scl v es
  | _ :: es => busConditions scl sda es

/-- The five shapes the events of one transaction can take, for a controller
whose stored address is `a`: abort after the address byte, abort after the
instruction byte, instruction-only transaction, write transaction (value byte
acknowledged or not) and read transaction. -/
inductive Transcript (a : Nat) : List Event → Prop where
  | addressNack :
      Transcript a (Event.noInterrupts :: (startEvents ++ (byteEvents a .HIGH ++ stopEvents)))
  | instructionNack (i : Nat) :
      Transcript a (Event.noInterrupts ::
        (startEvents ++ (byteEvents a .LOW ++ (byteEvents i .HIGH ++ stopEvents))))
  | instructionOnly (i : Nat) :
      Transcript a (Event.noInterrupts ::
        (startEvents ++ (byteEvents a .LOW ++
          (byteEvents i .LOW ++ (stopEvents ++ [Event.interrupts])))))
  | valueNack (i v : Nat) :
      Transcript a (Event.noInterrupts ::
        (startEvents ++ (byteEvents a .LOW ++ (byteEvents i .LOW ++
          (byteEvents v .HIGH ++ stopEvents)))))
  | valueAck (i v : Nat) :
      Transcript a (Event.noInterrupts ::
        (startEvents ++ (byteEvents a .LOW ++ (byteEvents i .LOW ++
          (byteEvents v .LOW ++ (stopEvents ++ [Event.interrupts]))))))
  | read (i : Nat) (l0 l1 l2 l3 l4 l5 l6 l7 : Level) :
      Transcript a (Event.noInterrupts ::
        (startEvents ++ (byteEvents a .LOW ++ (byteEvents i .LOW ++
          (recvEvents [l0, l1, l2, l3, l4, l5, l6, l7] ++
            (stopEvents ++ [Event.interrupts]))))))

/-! ## A simulated device -/

/-- Protocol phase of the simulated device: outside a transaction, receiving
the byte with the given index (0 = address, 1 = instruction, 2 = value), or
sending the value of a wiper. -/
inductive SimPhase where
  | idle
  | receiving (index : Nat)
  | sending
  deriving DecidableEq, Repr

/-- State of the simulated device: the levels the controller last drove on the
two pins, the protocol phase, the bits of the byte being received, whether the
acknowledgement clock of that byte is running, the instruction byte of the
transaction, the number of bits already sent, and the value of each wiper. -/
structure Sim where
  scl : Level
  sda : Level
  phase : SimPhase
  bits : List Level
  ackClock : Bool
  instr : Nat
  sent : Nat
  wiper : Nat → Nat

/-- Modelled from the spec: the simulated device at the end of the
acknowledgement clock of a byte.  The address byte is accepted whatever it is;
after a read-wiper instruction the device sends the value of the addressed
wiper; the value byte that follows a write-wiper instruction is stored in the
addressed wiper; every further byte is received and dropped. -/
def simByteDone (d : Sim) : Sim :=
  match d.phase with
  | .receiving 0 => { d with phase := .receiving 1, bits := [], ackClock := false }
  | .receiving 1 =>
      if shiftIn 0 d.bits / 16 = X9258_READ_WIPER / 16 then
        { d with phase := .sending, bits := [], ackClock := false,
                 instr := shiftIn 0 d.bits, sent := 0 }
      else
        { d with phase := .receiving 2, bits := [], ackClock := false,
                 instr := shiftIn 0 d.bits }
  | .receiving 2 =>
      if d.instr / 16 = X9258_WRITE_WIPER / 16 then
        { d with phase := .receiving 3, bits := [], ackClock := false,
                 wiper := fun k => if k = d.instr % 4 then shiftIn 0 d.bits else d.wiper k }
      else
        { d with phase := .receiving 3, bits := [], ackClock := false }
  | .receiving (n + 3) => { d with phase := .receiving (n + 4), bits := [], ackClock := false }
  | _ => d

/-- Modelled from the spec: reaction of the simulated device to one event of
the controller.  A fall of the data pin while the clock is high starts a
transaction and a rise of the data pin while the clock is high ends it; while
a byte is received, each of the first eight rising clock edges samples the
data pin, the ninth is the acknowledgement clock, and the falling edge that
ends it completes the byte; while a value is sent, every falling clock edge
moves to the next bit. -/
def simStep (d : Sim) : Event → Sim
  | Event.digitalWrite .SDA v =>
      if d.scl = .HIGH ∧ d.sda = .HIGH ∧ v = .LOW then
        { d with sda := v, phase := .receiving 0, bits := [], ackClock := false,
                 instr := 0, sent := 0 }
      else if d.scl = .HIGH ∧ d.sda = .LOW ∧ v = .HIGH then
        { d with sda := v, phase := .idle, bits := [], ackClock := false }
      else { d with sda := v }
  | Event.digitalWrite .SCL .HIGH =>
      if d.scl = .LOW then
        match d.phase with
        | .receiving _ =>
            if d.bits.length < 8 then { d with scl := .HIGH, bits := d.bits ++ [d.sda] }
            else { d with scl := .HIGH, ackClock := true }
        | _ => { d with scl := .HIGH }
      else d
  | Event.digitalWrite .SCL .LOW =>
      if d.scl = .HIGH then
        match d.phase with
        | .receiving _ =>
            if d.ackClock then simByteDone { d with scl := .LOW } else { d with scl := .LOW }
        | .sending => { d with scl := .LOW, sent := d.sent + 1 }
        | .idle => { d with scl := .LOW }
      else d
  | _ => d

/-- Modelled from the spec: level the simulated device presents on the data
pin.  It acknowledges every byte: the level is low from the eighth bit of a
received byte until the end of the acknowledgement clock.  While it sends, the
level is the current bit, most significant first, of the addressed wiper.
Otherwise the line is left high. -/
def simOut (d : Sim) : Level :=
  match d.phase with
  | .receiving _ => if d.bits.length = 8 then .LOW else .HIGH
  | .sending => (bitsMSB (d.wiper (d.instr % 4))).getD d.sent .HIGH
  | .idle => .HIGH

/-- State of the simulated device before any event, with initial wiper values
`init`. -/
def simInit (init : Nat → Nat) : Sim :=
  { scl := .LOW, sda := .HIGH, phase := .idle, bits := [], ackClock := false,
    instr := 0, sent := 0, wiper := init }

/-- State of the simulated device after the events `es`, from state `d`. -/
def simRun (d : Sim) (es : List Event) : Sim := es.foldl simStep d

/-- Modelled from the spec: the simulated device of the testable properties,
which acknowledges every byte and echoes the last value written to the
addressed wiper, as a device: the level read is the one it presents after the
history so far. -/
def simDevice (init : Nat → Nat) : Device :=
  fun h _ => simOut (simRun (simInit init) h)

/-- The levels the simulated device presents at `n` successive samples, each
followed by a clock pulse, from state `d`. -/
def simPresented (d : Sim) : Nat → List Level
  | 0 => []
  | n + 1 => simOut d :: simPresented (simRun d (sampleEvents (simOut d))) n

/-! ## Summaries of the bit-protocol routines -/

/-- Testing a byte against the mask `2 ^ i` selects bit `i`. -/
theorem level_of_mask (n i : Nat) :
    (if n &&& 2 ^ i = 0 then Level.LOW else Level.HIGH) = levelOfBit (n.testBit i) := by
  rw [Nat.and_two_pow]
  cases n.testBit i <;> simp [levelOfBit]

/-- The eight iterations of the loop of `send_data`, started with mask `0x80`. -/
theorem send_data_loop_eq (data : Nat) (s : Machine) :
    send_data_loop data 0x80 s =
      { s with sclLevel := .LOW, sdaLevel := levelOfBit (data.testBit 0),
               trace := s.trace ++ bitsEvents (bitsMSB data) } := by
  have h7 := level_of_mask data 7
  have h6 := level_of_mask data 6
  have h5 := level_of_mask data 5
  have h4 := level_of_mask data 4
  have h3 := level_of_mask data 3
  have h2 := level_of_mask data 2
  have h1 := level_of_mask data 1
  have h0 := level_of_mask data 0
  simp only [Nat.reducePow] at h7 h6 h5 h4 h3 h2 h1 h0
  simp [send_data_loop, send_clock, digitalWriteFast, bitsEvents, bitsMSB, bitEvents, clockPulse,
    h7, h6, h5, h4, h3, h2, h1, h0]
  by_cases h : data % 2 = 1 <;> simp [h, levelOfBit]

/-- Effect of `send_start` on the state. -/
theorem send_start_eq (s : Machine) :
    send_start s =
      { s with sclMode := .OUTPUT, sdaMode := .OUTPUT, sclLevel := .HIGH, sdaLevel := .LOW,
               trace := s.trace ++ startEvents } := by
  simp [send_start, pinMode, digitalWriteFast, startEvents]

/-- Effect of `send_stop` on the state. -/
theorem send_stop_eq (s : Machine) :
    send_stop s =
      { s with sclLevel := .LOW, sdaLevel := .HIGH, trace := s.trace ++ stopEvents } := by
  simp [send_stop, digitalWriteFast, stopEvents]

/-- Effect and result of `send_data`: the byte on the wire, then the
acknowledgement sample, whose level decides the result. -/
theorem send_data_eq (dev : Device) (data : Nat) (s : Machine) :
    send_data dev data s =
      (decide (ackLevel dev s.trace data = Level.LOW),
       { s with sdaMode := .OUTPUT, sclLevel := .LOW, sdaLevel := levelOfBit (data.testBit 0),
                trace := s.trace ++ byteEvents data (ackLevel dev s.trace data) }) := by
  simp [send_data, send_data_loop_eq, wait_for_ack, pinMode, digitalWriteFast, digitalReadFast,
    byteEvents, dataEvents, ackSampleEvents, ackSetupEvents, ackLevel]

/-- The events of a call that appended `es` to the trace are `es`. -/
theorem callEvents_append (s t : Machine) (es : List Event) (h : t.trace = s.trace ++ es) :
    callEvents s t = es := by
  simp [callEvents, h]

/-- The remaining `n` iterations of the loop of `recv_data`, entered with the
clock low. -/
theorem recv_data_loop_eq (dev : Device) (n : Nat) :
    ∀ (i data : Nat) (s : Machine), i + n = 8 → s.sclLevel = Level.LOW →
      recv_data_loop dev i data s =
        (shiftIn data (presented dev s.trace n),
         { s with trace := s.trace ++ samplesEvents (presented dev s.trace n) }) := by
  induction n with
  | zero =>
    intro i data s hi _
    have h8 : ¬ i < 8 := by omega
    rw [recv_data_loop]
    simp [h8, presented, shiftIn, samplesEvents]
  | succ n ih =>
    intro i data s hi hs
    have h8 : i < 8 := by omega
    rw [recv_data_loop]
    simp only [h8, if_true]
    rw [ih (i + 1) _ _ (by omega) (by simp [send_clock, digitalWriteFast, digitalReadFast])]
    simp [send_clock, digitalWriteFast, digitalReadFast, presented, shiftIn, samplesEvents,
      sampleEvents, clockPulse, bitOfLevel, hs]

/-- Effect and result of `recv_data`. -/
theorem recv_data_eq (dev : Device) (s : Machine) :
    recv_data dev s =
      (shiftIn 0 (presented dev (s.trace ++ recvSetupEvents) 8),
       { s with sdaMode := .OUTPUT, sclLevel := .LOW, sdaLevel := .LOW,
                trace := s.trace ++ recvEvents (presented dev (s.trace ++ recvSetupEvents) 8) }) := by
  unfold recv_data
  simp only []
  rw [recv_data_loop_eq dev 8 0 0 _ (by rfl) (by simp [pinMode, digitalWriteFast])]
  simp [send_ack, send_clock, pinMode, digitalWriteFast, recvEvents, recvSetupEvents]

/-! ## Properties of the driver -/

/-- C1: whatever the wiper index and the stored device address, if the device
presents a high level at the acknowledgement sample of the address byte, then
`getWiper` returns `0xFF`, and the events of the call are exactly: interrupts
off, the start condition, the eight address bits (clock taken low, then each
bit written and followed by one clock pulse), one acknowledgement sample (one
clock pulse with one read of the data pin), and the stop condition.  The only
clocked bits are the address bits and the only read is the acknowledgement
sample. -/
theorem getWiper_address_not_acknowledged (dev : Device) (wiper : Nat) (s : Machine)
    (h : ackLevel dev (s.trace ++ Event.noInterrupts :: startEvents) s.device_address
          = Level.HIGH) :
    (getWiper dev wiper s).1 = 0xFF ∧
    callEvents s (getWiper dev wiper s).2 =
      Event.noInterrupts ::
        (startEvents ++ (dataEvents s.device_address ++ (ackSampleEvents .HIGH ++ stopEvents))) ∧
    lineActivity (callEvents s (getWiper dev wiper s).2) =
      startEvents ++ (dataEvents s.device_address ++ (ackSampleEvents .HIGH ++ stopEvents)) ∧
    clockedBits (callEvents s (getWiper dev wiper s).2) = bitsMSB s.device_address ∧
    dataReads (callEvents s (getWiper dev wiper s).2) = [Level.HIGH] := by
  have ht : (getWiper dev wiper s).2.trace = s.trace ++ (Event.noInterrupts ::
      (startEvents ++ (dataEvents s.device_address ++ (ackSampleEvents .HIGH ++ stopEvents)))) := by
    simp [getWiper, read_value, noInterrupts, send_start_eq, send_data_eq, send_stop_eq, h,
      byteEvents]
  have hc := callEvents_append s _ _ ht
  refine ⟨?_, hc, ?_, ?_, ?_⟩
  · simp [getWiper, read_value, noInterrupts, send_start_eq, send_data_eq, h]
  · rw [hc]
    simp [lineActivity, startEvents, dataEvents, ackSampleEvents, stopEvents, bitsEvents,
      bitsMSB, bitEvents, clockPulse]
  · rw [hc]
    simp [clockedBits, startEvents, dataEvents, ackSampleEvents, stopEvents, bitsEvents,
      bitsMSB, bitEvents, clockPulse]
  · rw [hc]
    simp [dataReads, startEvents, dataEvents, ackSampleEvents, stopEvents, bitsEvents,
      bitsMSB, bitEvents, clockPulse]

/-- Witness for C1: no device on the bus, `getWiper(2)` on a controller that was
just set up. -/
theorem getWiper_address_not_acknowledged_witness :
    ackLevel absentDevice (ready.trace ++ Event.noInterrupts :: startEvents) ready.device_address
      = Level.HIGH ∧
    (getWiper absentDevice 2 ready).1 = 0xFF :=
  ⟨rfl, (getWiper_address_not_acknowledged absentDevice 2 ready rfl).1⟩

/-- C2: the claim fails on the early-abort paths.  On a controller that was just
set up (interrupts enabled), with no device acknowledging the address byte,
each of the three transaction routines returns with interrupts still disabled
and `interrupts()` is not among the events of the call; the routines also
return with interrupts disabled when only the instruction byte is not
acknowledged.  When every byte is acknowledged the routines do re-enable
interrupts after the stop condition. -/
theorem interrupts_left_disabled_on_abort (instruction value : Nat) :
    ready.interruptsEnabled = true ∧
    (write_instruction absentDevice instruction ready).interruptsEnabled = false ∧
    (write_value absentDevice instruction value ready).interruptsEnabled = false ∧
    (read_value absentDevice instruction ready).2.interruptsEnabled = false ∧
    (write_instruction (scriptDevice [.LOW]) instruction ready).interruptsEnabled = false ∧
    (write_value (scriptDevice [.LOW]) instruction value ready).interruptsEnabled = false ∧
    (read_value (scriptDevice [.LOW]) instruction ready).2.interruptsEnabled = false ∧
    Event.interrupts ∉ callEvents ready (write_instruction absentDevice instruction ready) ∧
    Event.interrupts ∉ callEvents ready (write_value absentDevice instruction value ready) ∧
    Event.interrupts ∉ callEvents ready (read_value absentDevice instruction ready).2 ∧
    (write_instruction lowDevice instruction ready).interruptsEnabled = true ∧
    (write_value lowDevice instruction value ready).interruptsEnabled = true ∧
    (read_value lowDevice instruction ready).2.interruptsEnabled = true := by
  refine ⟨rfl, ?_, ?_, ?_, ?_, ?_, ?_, ?_, ?_, ?_, ?_, ?_, ?_⟩
  · simp [write_instruction, noInterrupts, send_start_eq, send_data_eq, send_stop_eq, ackLevel,
      absentDevice]
  · simp [write_value, noInterrupts, send_start_eq, send_data_eq, send_stop_eq, ackLevel,
      absentDevice]
  · simp [read_value, noInterrupts, send_start_eq, send_data_eq, send_stop_eq, ackLevel,
      absentDevice]
  · simp [write_instruction, noInterrupts, send_start_eq, send_data_eq, send_stop_eq, ackLevel,
      scriptDevice, readCount, dataReads, ready, setup, new, setAddress, powerOn, pinMode,
      digitalWriteFast, startEvents, dataEvents, ackSetupEvents, ackSampleEvents, byteEvents,
      bitsEvents, bitsMSB, bitEvents, clockPulse]
  · simp [write_value, noInterrupts, send_start_eq, send_data_eq, send_stop_eq, ackLevel,
      scriptDevice, readCount, dataReads, ready, setup, new, setAddress, powerOn, pinMode,
      digitalWriteFast, startEvents, dataEvents, ackSetupEvents, ackSampleEvents, byteEvents,
      bitsEvents, bitsMSB, bitEvents, clockPulse]
  · simp [read_value, noInterrupts, send_start_eq, send_data_eq, send_stop_eq, ackLevel,
      scriptDevice, readCount, dataReads, ready, setup, new, setAddress, powerOn, pinMode,
      digitalWriteFast, startEvents, dataEvents, ackSetupEvents, ackSampleEvents, byteEvents,
      bitsEvents, bitsMSB, bitEvents, clockPulse]
  · simp [callEvents, write_instruction, noInterrupts, send_start_eq, send_data_eq, send_stop_eq,
      ackLevel, absentDevice, stopEvents, startEvents, byteEvents, dataEvents, ackSampleEvents,
      bitsEvents, bitsMSB, bitEvents, clockPulse]
  · simp [callEvents, write_value, noInterrupts, send_start_eq, send_data_eq, send_stop_eq,
      ackLevel, absentDevice, stopEvents, startEvents, byteEvents, dataEvents, ackSampleEvents,
      bitsEvents, bitsMSB, bitEvents, clockPulse]
  · simp [callEvents, read_value, noInterrupts, send_start_eq, send_data_eq, send_stop_eq,
      ackLevel, absentDevice, stopEvents, startEvents, byteEvents, dataEvents, ackSampleEvents,
      bitsEvents, bitsMSB, bitEvents, clockPulse]
  · simp [write_instruction, noInterrupts, interrupts, send_start_eq, send_data_eq, send_stop_eq,
      ackLevel, lowDevice]
  · simp [write_value, noInterrupts, interrupts, send_start_eq, send_data_eq, send_stop_eq,
      ackLevel, lowDevice]
  · simp [read_value, noInterrupts, interrupts, send_start_eq, send_data_eq, send_stop_eq,
      recv_data_eq, ackLevel, lowDevice]

/-- C3: for every byte `b`, `send_data(b)` takes the clock low and then writes
exactly eight levels to the data pin, bit 7 first and bit 0 last (high for a
1 bit, low for a 0 bit); every one of these writes happens while the clock is
low and is followed by exactly one clock pulse; the acknowledgement sample
follows.  For `b = 0b10110010` the levels are 1,0,1,1,0,0,1,0. -/
theorem send_data_most_significant_bit_first (dev : Device) (b : Nat) (s : Machine) :
    callEvents s (send_data dev b s).2 =
      Event.digitalWrite .SCL .LOW ::
        (bitsEvents (bitsMSB b) ++ ackSampleEvents (ackLevel dev s.trace b)) ∧
    dataWritesAt s.sclLevel (callEvents s (send_data dev b s).2) =
      (bitsMSB b).map (fun v => (v, Level.LOW)) ∧
    clockedBits (callEvents s (send_data dev b s).2) = bitsMSB b ∧
    (bitsMSB b).length = 8 ∧
    dataWrites (callEvents s (send_data dev 0b10110010 s).2) =
      [.HIGH, .LOW, .HIGH, .HIGH, .LOW, .LOW, .HIGH, .LOW] := by
  have hc : ∀ d, callEvents s (send_data dev d s).2 =
      Event.digitalWrite .SCL .LOW ::
        (bitsEvents (bitsMSB d) ++ ackSampleEvents (ackLevel dev s.trace d)) := by
    intro d
    apply callEvents_append
    simp [send_data_eq, byteEvents, dataEvents]
  refine ⟨hc b, ?_, ?_, rfl, ?_⟩
  · rw [hc]
    simp [dataWritesAt, withClock, bitsEvents, bitsMSB, bitEvents, clockPulse, ackSampleEvents]
  · rw [hc]
    simp [clockedBits, bitsEvents, bitsMSB, bitEvents, clockPulse, ackSampleEvents]
  · rw [hc]
    simp [dataWrites, bitsEvents, bitsMSB, bitEvents, clockPulse, ackSampleEvents, levelOfBit]
    decide

/-- C4: for every sequence of eight levels `l0 .. l7` that the device presents
at the eight successive samples, `recv_data` makes the data pin an input, takes
the clock low, samples the data pin exactly eight times, each sample while the
clock is low and followed by one clock pulse, and returns the byte whose bit 7
is `l0` and whose bit 0 is `l7` (high = 1); after the eighth pulse it makes the
data pin an output again, drives it low and issues exactly one clock pulse. -/
theorem recv_data_most_significant_bit_first (dev : Device) (s : Machine)
    (l0 l1 l2 l3 l4 l5 l6 l7 : Level)
    (h : presented dev (s.trace ++ recvSetupEvents) 8 = [l0, l1, l2, l3, l4, l5, l6, l7]) :
    (recv_data dev s).1 =
      128 * bitOfLevel l0 + 64 * bitOfLevel l1 + 32 * bitOfLevel l2 + 16 * bitOfLevel l3 +
        8 * bitOfLevel l4 + 4 * bitOfLevel l5 + 2 * bitOfLevel l6 + bitOfLevel l7 ∧
    bitsMSB (recv_data dev s).1 = [l0, l1, l2, l3, l4, l5, l6, l7] ∧
    callEvents s (recv_data dev s).2 =
      Event.pinMode .SDA .INPUT :: Event.digitalWrite .SCL .LOW ::
        (samplesEvents [l0, l1, l2, l3, l4, l5, l6, l7] ++
          [Event.pinMode .SDA .OUTPUT, Event.digitalWrite .SDA .LOW,
           Event.digitalWrite .SCL .HIGH, Event.digitalWrite .SCL .LOW]) ∧
    dataReadsAt s.sclLevel (callEvents s (recv_data dev s).2) =
      [(l0, .LOW), (l1, .LOW), (l2, .LOW), (l3, .LOW), (l4, .LOW), (l5, .LOW), (l6, .LOW),
       (l7, .LOW)] ∧
    dataWrites (callEvents s (recv_data dev s).2) = [Level.LOW] ∧
    (recv_data dev s).2.sdaMode = Mode.OUTPUT := by
  have hc : callEvents s (recv_data dev s).2 = recvEvents [l0, l1, l2, l3, l4, l5, l6, l7] := by
    apply callEvents_append
    simp [recv_data_eq, h]
  have hv : (recv_data dev s).1 = shiftIn 0 [l0, l1, l2, l3, l4, l5, l6, l7] := by
    simp [recv_data_eq, h]
  refine ⟨?_, ?_, ?_, ?_, ?_, ?_⟩
  · rw [hv]
    cases l0 <;> cases l1 <;> cases l2 <;> cases l3 <;> cases l4 <;> cases l5 <;> cases l6 <;>
      cases l7 <;> rfl
  · rw [hv]
    cases l0 <;> cases l1 <;> cases l2 <;> cases l3 <;> cases l4 <;> cases l5 <;> cases l6 <;>
      cases l7 <;> rfl
  · rw [hc]
    rfl
  · rw [hc]
    simp [dataReadsAt, withClock, recvEvents, samplesEvents, sampleEvents, clockPulse]
  · rw [hc]
    simp [dataWrites, recvEvents, samplesEvents, sampleEvents, clockPulse]
  · simp [recv_data_eq]

/-- Witness for C4: a device presenting 1,0,1,1,0,0,1,0 to a controller that
was just set up; the byte received is `0xB2`. -/
theorem recv_data_most_significant_bit_first_witness :
    presented (scriptDevice [.HIGH, .LOW, .HIGH, .HIGH, .LOW, .LOW, .HIGH, .LOW])
        (ready.trace ++ recvSetupEvents) 8
      = [.HIGH, .LOW, .HIGH, .HIGH, .LOW, .LOW, .HIGH, .LOW] ∧
    (recv_data (scriptDevice [.HIGH, .LOW, .HIGH, .HIGH, .LOW, .LOW, .HIGH, .LOW]) ready).1
      = 0xB2 :=
  ⟨rfl, (recv_data_most_significant_bit_first
    (scriptDevice [.HIGH, .LOW, .HIGH, .HIGH, .LOW, .LOW, .HIGH, .LOW]) ready
    .HIGH .LOW .HIGH .HIGH .LOW .LOW .HIGH .LOW rfl).1⟩

/-- C5: for every selector `sel`, `setAddress(sel)` stores
`0x50 | (sel & 0x0F)`: the upper nibble of the stored address is `0x5`, the
lower nibble is `sel & 0xF`, the selector `0x1F` gives `0x5F`; nothing else in
the state changes, in particular no pin event is recorded. -/
theorem setAddress_stores_masked_address (sel : Nat) (s : Machine) :
    (setAddress sel s).device_address = 0x50 ||| (sel &&& 0x0F) ∧
    (setAddress sel s).device_address / 16 = 0x5 ∧
    (setAddress sel s).device_address % 16 = sel &&& 0xF ∧
    (setAddress sel s).device_address % 16 = sel % 16 ∧
    (setAddress 0x1F s).device_address = 0x5F ∧
    callEvents s (setAddress sel s) = [] ∧
    setAddress sel s = { s with device_address := 0x50 ||| (sel &&& 0x0F) } := by
  have hm : sel &&& 0x0F = sel % 16 := Nat.and_pow_two_sub_one_eq_mod sel 4
  have hlt : sel % 16 < 16 := Nat.mod_lt _ (by decide)
  have hd : (setAddress sel s).device_address = 0x50 ||| (sel % 16) := by
    simp only [setAddress, X9258_DEVICE_TYPE, hm]
    generalize sel % 16 = k at hlt
    interval_cases k <;> rfl
  refine ⟨?_, ?_, ?_, ?_, ?_, ?_, ?_⟩
  · rw [hd, hm]
  · rw [hd]
    generalize sel % 16 = k at hlt
    interval_cases k <;> rfl
  · rw [hd, hm]
    generalize sel % 16 = k at hlt
    interval_cases k <;> rfl
  · rw [hd]
    generalize sel % 16 = k at hlt
    interval_cases k <;> rfl
  · rfl
  · simp [callEvents, setAddress]
  · have hd2 := hd
    rw [← hm] at hd2
    simp only [setAddress] at hd2 ⊢
    rw [hd2]

/-- Masking an operand with `0x03` keeps its two low bits. -/
theorem and_three_eq_mod (w : Nat) : w &&& 0x03 = w % 4 :=
  Nat.and_pow_two_sub_one_eq_mod w 2

/-- C6: for every wiper argument `w`, `getWiper` runs the read transaction with
instruction byte `0x90 | (w & 3)`, `setWiper` the write transaction with
`0xA0 | (w & 3)` and `enableIncDecWiper` the write transaction with
`0x20 | (w & 3)`, the second argument of the latter two being passed on
unchanged as the value byte; the wiper index only contributes its two low
bits, and `getWiper(2)` uses `0x92`. -/
theorem wiper_instruction_bytes (dev : Device) (w v : Nat) (s : Machine) :
    getWiper dev w s = read_value dev (0x90 ||| (w &&& 3)) s ∧
    setWiper dev w v s = write_value dev (0xA0 ||| (w &&& 3)) v s ∧
    enableIncDecWiper dev w v s = write_value dev (0x20 ||| (w &&& 3)) v s ∧
    0x90 ||| (w &&& 3) = 0x90 + w % 4 ∧
    0xA0 ||| (w &&& 3) = 0xA0 + w % 4 ∧
    0x20 ||| (w &&& 3) = 0x20 + w % 4 ∧
    getWiper dev 2 s = read_value dev 0x92 s := by
  have hw : w &&& 3 = w % 4 := and_three_eq_mod w
  have hlt : w % 4 < 4 := Nat.mod_lt _ (by decide)
  simp only [getWiper, setWiper, enableIncDecWiper, X9258_READ_WIPER, X9258_WRITE_WIPER,
    X9258_INC_DEC_WIPER, hw]
  generalize w % 4 = k at hlt
  interval_cases k <;> exact ⟨rfl, rfl, rfl, rfl, rfl, rfl, rfl⟩

/-- C7: for every wiper argument `w` and memory argument `m`, `getMemory`,
`setMemory`, `xfrMemoryToWiper` and `xfrWiperToMemory` use the instruction byte
`opcode | ((m & 3) << 2) | (w & 3)` with opcode `0xB0`, `0xC0`, `0xD0` and
`0xE0`; only the two low bits of each operand are used and the upper nibble of
the byte is always the opcode nibble; `setMemory(1, 3, value)` uses `0xCD`. -/
theorem memory_instruction_bytes (dev : Device) (w m v : Nat) (s : Machine) :
    getMemory dev w m s = read_value dev (0xB0 ||| ((m &&& 3) <<< 2) ||| (w &&& 3)) s ∧
    setMemory dev w m v s = write_value dev (0xC0 ||| ((m &&& 3) <<< 2) ||| (w &&& 3)) v s ∧
    xfrMemoryToWiper dev w m s =
      write_instruction dev (0xD0 ||| ((m &&& 3) <<< 2) ||| (w &&& 3)) s ∧
    xfrWiperToMemory dev w m s =
      write_instruction dev (0xE0 ||| ((m &&& 3) <<< 2) ||| (w &&& 3)) s ∧
    (0xB0 ||| ((m &&& 3) <<< 2) ||| (w &&& 3) = 0xB0 + 4 * (m % 4) + w % 4 ∧
     0xC0 ||| ((m &&& 3) <<< 2) ||| (w &&& 3) = 0xC0 + 4 * (m % 4) + w % 4 ∧
     0xD0 ||| ((m &&& 3) <<< 2) ||| (w &&& 3) = 0xD0 + 4 * (m % 4) + w % 4 ∧
     0xE0 ||| ((m &&& 3) <<< 2) ||| (w &&& 3) = 0xE0 + 4 * (m % 4) + w % 4) ∧
    ((0xB0 ||| ((m &&& 3) <<< 2) ||| (w &&& 3)) / 16 = 0xB ∧
     (0xC0 ||| ((m &&& 3) <<< 2) ||| (w &&& 3)) / 16 = 0xC ∧
     (0xD0 ||| ((m &&& 3) <<< 2) ||| (w &&& 3)) / 16 = 0xD ∧
     (0xE0 ||| ((m &&& 3) <<< 2) ||| (w &&& 3)) / 16 = 0xE) ∧
    setMemory dev 1 3 v s = write_value dev 0xCD v s := by
  have hw : w &&& 3 = w % 4 := and_three_eq_mod w
  have hm : m &&& 3 = m % 4 := and_three_eq_mod m
  have hwlt : w % 4 < 4 := Nat.mod_lt _ (by decide)
  have hmlt : m % 4 < 4 := Nat.mod_lt _ (by decide)
  simp only [getMemory, setMemory, xfrMemoryToWiper, xfrWiperToMemory, X9258_READ_MEMORY,
    X9258_WRITE_MEMORY, X9258_XFR_MEMORY_TO_WIPER, X9258_XFR_WIPER_TO_MEMORY, hw, hm]
  generalize w % 4 = k at hwlt
  generalize m % 4 = j at hmlt
  interval_cases k <;> interval_cases j <;>
    exact ⟨rfl, rfl, rfl, rfl, ⟨rfl, rfl, rfl, rfl⟩, ⟨rfl, rfl, rfl, rfl⟩, rfl⟩

/-- The instruction byte of a global transfer fits in a `uint8_t`. -/
theorem global_instruction_byte (op m : Nat) (hop : op = 0x10 ∨ op = 0x80) :
    (op ||| ((m &&& 0x03) <<< 2)) % 256 = op ||| ((m &&& 3) <<< 2) := by
  have hm : m &&& 0x03 = m % 4 := and_three_eq_mod m
  have hmlt : m % 4 < 4 := Nat.mod_lt _ (by decide)
  rw [hm]
  generalize m % 4 = j at hmlt
  rcases hop with rfl | rfl <;> interval_cases j <;> rfl

/-- Trace of `write_instruction` when both bytes are acknowledged. -/
theorem write_instruction_acknowledged (dev : Device) (instruction : Nat) (s : Machine)
    (h1 : ackLevel dev (s.trace ++ Event.noInterrupts :: startEvents) s.device_address
          = Level.LOW)
    (h2 : ackLevel dev
            (s.trace ++ Event.noInterrupts :: (startEvents ++ byteEvents s.device_address .LOW))
            instruction = Level.LOW) :
    (write_instruction dev instruction s).trace =
      s.trace ++ (Event.noInterrupts ::
        (startEvents ++ (byteEvents s.device_address .LOW ++
          (byteEvents instruction .LOW ++ (stopEvents ++ [Event.interrupts]))))) := by
  simp [write_instruction, noInterrupts, interrupts, send_start_eq, send_data_eq, send_stop_eq,
    h1, h2]

/-- Line activity and clocked bits of a completed instruction-only transaction. -/
theorem instruction_only_observations (a i : Nat) :
    lineActivity (Event.noInterrupts ::
        (startEvents ++ (byteEvents a .LOW ++
          (byteEvents i .LOW ++ (stopEvents ++ [Event.interrupts]))))) =
      startEvents ++ (byteEvents a .LOW ++ (byteEvents i .LOW ++ stopEvents)) ∧
    clockedBits (Event.noInterrupts ::
        (startEvents ++ (byteEvents a .LOW ++
          (byteEvents i .LOW ++ (stopEvents ++ [Event.interrupts]))))) =
      bitsMSB a ++ bitsMSB i := by
  constructor
  · simp [lineActivity, startEvents, byteEvents, dataEvents, ackSampleEvents, stopEvents,
      bitsEvents, bitsMSB, bitEvents, clockPulse]
  · simp [clockedBits, startEvents, byteEvents, dataEvents, ackSampleEvents, stopEvents,
      bitsEvents, bitsMSB, bitEvents, clockPulse]

/-- C8: for every memory argument `m`, when the device acknowledges the address
byte and the instruction byte, `globalXfrMemoryToWiper(m)` and
`globalXfrWiperToMemory(m)` perform an instruction-only transaction: start
condition, address byte, instruction byte `0x10 | ((m & 3) << 2)` respectively
`0x80 | ((m & 3) << 2)`, stop condition (bracketed by the disabling and the
re-enabling of interrupts); exactly sixteen bits are clocked out, those of the
two bytes, and there is no value byte.  `globalXfrMemoryToWiper(2)` uses
instruction byte `0x18`. -/
theorem global_transfer_instruction_only (dev : Device) (m : Nat) (s : Machine)
    (h1 : ackLevel dev (s.trace ++ Event.noInterrupts :: startEvents) s.device_address
          = Level.LOW)
    (h2 : ackLevel dev
            (s.trace ++ Event.noInterrupts :: (startEvents ++ byteEvents s.device_address .LOW))
            (0x10 ||| ((m &&& 3) <<< 2)) = Level.LOW)
    (h3 : ackLevel dev
            (s.trace ++ Event.noInterrupts :: (startEvents ++ byteEvents s.device_address .LOW))
            (0x80 ||| ((m &&& 3) <<< 2)) = Level.LOW) :
    (callEvents s (globalXfrMemoryToWiper dev m s) =
        Event.noInterrupts ::
          (startEvents ++ (byteEvents s.device_address .LOW ++
            (byteEvents (0x10 ||| ((m &&& 3) <<< 2)) .LOW ++ (stopEvents ++ [Event.interrupts])))) ∧
     lineActivity (callEvents s (globalXfrMemoryToWiper dev m s)) =
        startEvents ++ (byteEvents s.device_address .LOW ++
          (byteEvents (0x10 ||| ((m &&& 3) <<< 2)) .LOW ++ stopEvents)) ∧
     clockedBits (callEvents s (globalXfrMemoryToWiper dev m s)) =
        bitsMSB s.device_address ++ bitsMSB (0x10 ||| ((m &&& 3) <<< 2)) ∧
     (clockedBits (callEvents s (globalXfrMemoryToWiper dev m s))).length = 16) ∧
    (callEvents s (globalXfrWiperToMemory dev m s) =
        Event.noInterrupts ::
          (startEvents ++ (byteEvents s.device_address .LOW ++
            (byteEvents (0x80 ||| ((m &&& 3) <<< 2)) .LOW ++ (stopEvents ++ [Event.interrupts])))) ∧
     lineActivity (callEvents s (globalXfrWiperToMemory dev m s)) =
        startEvents ++ (byteEvents s.device_address .LOW ++
          (byteEvents (0x80 ||| ((m &&& 3) <<< 2)) .LOW ++ stopEvents)) ∧
     clockedBits (callEvents s (globalXfrWiperToMemory dev m s)) =
        bitsMSB s.device_address ++ bitsMSB (0x80 ||| ((m &&& 3) <<< 2)) ∧
     (clockedBits (callEvents s (globalXfrWiperToMemory dev m s))).length = 16) ∧
    globalXfrMemoryToWiper dev 2 s = write_instruction dev 0x18 s := by
  have e1 : globalXfrMemoryToWiper dev m s =
      write_instruction dev (0x10 ||| ((m &&& 3) <<< 2)) s := by
    simp only [globalXfrMemoryToWiper, X9258_GLOBAL_XFR_MEMORY_TO_WIPER]
    rw [global_instruction_byte 0x10 m (Or.inl rfl)]
  have e2 : globalXfrWiperToMemory dev m s =
      write_instruction dev (0x80 ||| ((m &&& 3) <<< 2)) s := by
    simp only [globalXfrWiperToMemory, X9258_GLOBAL_XFR_WIPER_TO_MEMORY]
    rw [global_instruction_byte 0x80 m (Or.inr rfl)]
  have c1 := callEvents_append s _ _ (write_instruction_acknowledged dev _ s h1 h2)
  have c2 := callEvents_append s _ _ (write_instruction_acknowledged dev _ s h1 h3)
  have o1 := instruction_only_observations s.device_address (0x10 ||| ((m &&& 3) <<< 2))
  have o2 := instruction_only_observations s.device_address (0x80 ||| ((m &&& 3) <<< 2))
  rw [e1, e2, c1, c2]
  refine ⟨⟨rfl, o1.1, o1.2, ?_⟩, ⟨rfl, o2.1, o2.2, ?_⟩, rfl⟩
  · rw [o1.2]
    rfl
  · rw [o2.2]
    rfl

/-- Witness for C8: a device that always pulls the data line low,
`globalXfrMemoryToWiper(2)` on a controller that was just set up; the bytes on
the wire are the address `0x50` and the instruction `0x18`. -/
theorem global_transfer_instruction_only_witness :
    ackLevel lowDevice (ready.trace ++ Event.noInterrupts :: startEvents) ready.device_address
      = Level.LOW ∧
    callEvents ready (globalXfrMemoryToWiper lowDevice 2 ready) =
      Event.noInterrupts ::
        (startEvents ++ (byteEvents 0x50 .LOW ++
          (byteEvents 0x18 .LOW ++ (stopEvents ++ [Event.interrupts])))) :=
  ⟨rfl, (global_transfer_instruction_only lowDevice 2 ready rfl rfl rfl).1.1⟩

/-- Clocked bits and reads of a transaction aborted after the instruction byte. -/
theorem abort_after_instruction_observations (a i : Nat) :
    clockedBits (Event.noInterrupts ::
        (startEvents ++ (byteEvents a .LOW ++ (byteEvents i .HIGH ++ stopEvents)))) =
      bitsMSB a ++ bitsMSB i ∧
    dataReads (Event.noInterrupts ::
        (startEvents ++ (byteEvents a .LOW ++ (byteEvents i .HIGH ++ stopEvents)))) =
      [Level.LOW, Level.HIGH] := by
  constructor
  · simp [clockedBits, startEvents, byteEvents, dataEvents, ackSampleEvents, stopEvents,
      bitsEvents, bitsMSB, bitEvents, clockPulse]
  · simp [dataReads, startEvents, byteEvents, dataEvents, ackSampleEvents, stopEvents,
      bitsEvents, bitsMSB, bitEvents, clockPulse]

/-- C9: in each of the three transaction routines, if the address byte is
acknowledged and the instruction byte is not, the events of the call are
exactly: interrupts off, start condition, address byte with its acknowledgement
sample (low), instruction byte with its acknowledgement sample (high), stop
condition.  The clocked bits are those of the address and instruction bytes
only (no value byte), the only reads of the data pin are the two
acknowledgement samples (no byte is received), and `read_value` returns
`0xFF`. -/
theorem instruction_not_acknowledged_aborts (dev : Device) (instruction value : Nat)
    (s : Machine)
    (h1 : ackLevel dev (s.trace ++ Event.noInterrupts :: startEvents) s.device_address
          = Level.LOW)
    (h2 : ackLevel dev
            (s.trace ++ Event.noInterrupts :: (startEvents ++ byteEvents s.device_address .LOW))
            instruction = Level.HIGH) :
    (callEvents s (write_instruction dev instruction s) =
        Event.noInterrupts ::
          (startEvents ++ (byteEvents s.device_address .LOW ++
            (byteEvents instruction .HIGH ++ stopEvents))) ∧
     clockedBits (callEvents s (write_instruction dev instruction s)) =
        bitsMSB s.device_address ++ bitsMSB instruction ∧
     dataReads (callEvents s (write_instruction dev instruction s)) = [.LOW, .HIGH]) ∧
    (callEvents s (write_value dev instruction value s) =
        Event.noInterrupts ::
          (startEvents ++ (byteEvents s.device_address .LOW ++
            (byteEvents instruction .HIGH ++ stopEvents))) ∧
     clockedBits (callEvents s (write_value dev instruction value s)) =
        bitsMSB s.device_address ++ bitsMSB instruction ∧
     dataReads (callEvents s (write_value dev instruction value s)) = [.LOW, .HIGH]) ∧
    (callEvents s (read_value dev instruction s).2 =
        Event.noInterrupts ::
          (startEvents ++ (byteEvents s.device_address .LOW ++
            (byteEvents instruction .HIGH ++ stopEvents))) ∧
     clockedBits (callEvents s (read_value dev instruction s).2) =
        bitsMSB s.device_address ++ bitsMSB instruction ∧
     dataReads (callEvents s (read_value dev instruction s).2) = [.LOW, .HIGH] ∧
     (read_value dev instruction s).1 = 0xFF) := by
  have c1 : callEvents s (write_instruction dev instruction s) =
      Event.noInterrupts :: (startEvents ++ (byteEvents s.device_address .LOW ++
        (byteEvents instruction .HIGH ++ stopEvents))) := by
    apply callEvents_append
    simp [write_instruction, noInterrupts, send_start_eq, send_data_eq, send_stop_eq, h1, h2]
  have c2 : callEvents s (write_value dev instruction value s) =
      Event.noInterrupts :: (startEvents ++ (byteEvents s.device_address .LOW ++
        (byteEvents instruction .HIGH ++ stopEvents))) := by
    apply callEvents_append
    simp [write_value, noInterrupts, send_start_eq, send_data_eq, send_stop_eq, h1, h2]
  have c3 : callEvents s (read_value dev instruction s).2 =
      Event.noInterrupts :: (startEvents ++ (byteEvents s.device_address .LOW ++
        (byteEvents instruction .HIGH ++ stopEvents))) := by
    apply callEvents_append
    simp [read_value, noInterrupts, send_start_eq, send_data_eq, send_stop_eq, h1, h2]
  have o := abort_after_instruction_observations s.device_address instruction
  rw [c1, c2, c3]
  refine ⟨⟨rfl, o.1, o.2⟩, ⟨rfl, o.1, o.2⟩, ⟨rfl, o.1, o.2, ?_⟩⟩
  simp [read_value, noInterrupts, send_start_eq, send_data_eq, h1, h2]

/-- Witness for C9: a device that acknowledges the first byte only, a
controller that was just set up, instruction `0x92` and value `0x80`. -/
theorem instruction_not_acknowledged_aborts_witness :
    ackLevel (scriptDevice [.LOW]) (ready.trace ++ Event.noInterrupts :: startEvents)
        ready.device_address = Level.LOW ∧
    ackLevel (scriptDevice [.LOW])
        (ready.trace ++ Event.noInterrupts ::
          (startEvents ++ byteEvents ready.device_address .LOW)) 0x92 = Level.HIGH ∧
    (read_value (scriptDevice [.LOW]) 0x92 ready).1 = 0xFF ∧
    dataReads (callEvents ready (write_value (scriptDevice [.LOW]) 0x92 0x80 ready))
      = [.LOW, .HIGH] :=
  ⟨rfl, rfl,
   (instruction_not_acknowledged_aborts (scriptDevice [.LOW]) 0x92 0x80 ready rfl rfl).2.2.2.2.2,
   (instruction_not_acknowledged_aborts (scriptDevice [.LOW]) 0x92 0x80 ready rfl rfl).2.1.2.2⟩

/-- C10: the acknowledgement of the value byte is not ignored by `write_value`.
On a controller that was just set up, for every instruction and value, the run
against a device that acknowledges all three bytes and the run against a
device that acknowledges the address and instruction bytes but not the value
byte drive the pins through the same transitions and both end with the stop
condition, but the first run returns with interrupts enabled (after a final
`interrupts()`), the second with interrupts disabled: the final states
differ. -/
theorem write_value_value_ack_not_ignored (instruction value : Nat) :
    callEvents ready (write_value lowDevice instruction value ready) =
      Event.noInterrupts ::
        (startEvents ++ (byteEvents 0x50 .LOW ++ (byteEvents instruction .LOW ++
          (byteEvents value .LOW ++ (stopEvents ++ [Event.interrupts]))))) ∧
    callEvents ready (write_value (scriptDevice [.LOW, .LOW]) instruction value ready) =
      Event.noInterrupts ::
        (startEvents ++ (byteEvents 0x50 .LOW ++ (byteEvents instruction .LOW ++
          (byteEvents value .HIGH ++ stopEvents)))) ∧
    driven (callEvents ready (write_value lowDevice instruction value ready)) =
      driven (callEvents ready (write_value (scriptDevice [.LOW, .LOW]) instruction value ready)) ∧
    (write_value lowDevice instruction value ready).interruptsEnabled = true ∧
    (write_value (scriptDevice [.LOW, .LOW]) instruction value ready).interruptsEnabled = false ∧
    { write_value lowDevice instruction value ready with trace := [] } ≠
      { write_value (scriptDevice [.LOW, .LOW]) instruction value ready with trace := [] } := by
  have t1 : (write_value lowDevice instruction value ready).trace = ready.trace ++
      (Event.noInterrupts ::
        (startEvents ++ (byteEvents 0x50 .LOW ++ (byteEvents instruction .LOW ++
          (byteEvents value .LOW ++ (stopEvents ++ [Event.interrupts])))))) := by
    simp [write_value, noInterrupts, interrupts, send_start_eq, send_data_eq, send_stop_eq,
      ackLevel, lowDevice, ready, setup, new, setAddress, powerOn, pinMode, digitalWriteFast,
      X9258_DEVICE_TYPE]
  have t2 : (write_value (scriptDevice [.LOW, .LOW]) instruction value ready).trace =
      ready.trace ++ (Event.noInterrupts ::
        (startEvents ++ (byteEvents 0x50 .LOW ++ (byteEvents instruction .LOW ++
          (byteEvents value .HIGH ++ stopEvents))))) := by
    simp [write_value, noInterrupts, interrupts, send_start_eq, send_data_eq, send_stop_eq,
      ackLevel, scriptDevice, readCount, dataReads, ready, setup, new, setAddress, powerOn,
      pinMode, digitalWriteFast, X9258_DEVICE_TYPE, startEvents, dataEvents, ackSetupEvents,
      ackSampleEvents, byteEvents, bitsEvents, bitsMSB, bitEvents, clockPulse, stopEvents]
  have c1 := callEvents_append ready _ _ t1
  have c2 := callEvents_append ready _ _ t2
  have i1 : (write_value lowDevice instruction value ready).interruptsEnabled = true := by
    simp [write_value, noInterrupts, interrupts, send_start_eq, send_data_eq, send_stop_eq,
      ackLevel, lowDevice]
  have i2 : (write_value (scriptDevice [.LOW, .LOW]) instruction value ready).interruptsEnabled
      = false := by
    simp [write_value, noInterrupts, interrupts, send_start_eq, send_data_eq, send_stop_eq,
      ackLevel, scriptDevice, readCount, dataReads, ready, setup, new, setAddress, powerOn,
      pinMode, digitalWriteFast, startEvents, dataEvents, ackSetupEvents, ackSampleEvents,
      byteEvents, bitsEvents, bitsMSB, bitEvents, clockPulse]
  refine ⟨c1, c2, ?_, i1, i2, ?_⟩
  · rw [c1, c2]
    simp [driven, startEvents, dataEvents, ackSampleEvents, byteEvents, bitsEvents, bitsMSB,
      bitEvents, clockPulse, stopEvents]
  · intro h
    have h3 := congrArg Machine.interruptsEnabled h
    simp only [] at h3
    rw [i1, i2] at h3
    exact Bool.noConfusion h3

/-- C12: in a read transaction whose address and instruction bytes are both
acknowledged, for every sequence of eight levels `l0 .. l7` the device presents
at the eight samples, the events of the call are exactly: interrupts off,
start condition, address byte, instruction byte, one received byte (eight
samples, then the acknowledgement of the controller), stop condition,
interrupts on.  The value returned is the byte whose bits 7..0 are
`l0 .. l7`; eight high samples give `0xFF`. -/
theorem read_value_returns_received_byte (dev : Device) (instruction : Nat) (s : Machine)
    (l0 l1 l2 l3 l4 l5 l6 l7 : Level)
    (h1 : ackLevel dev (s.trace ++ Event.noInterrupts :: startEvents) s.device_address
          = Level.LOW)
    (h2 : ackLevel dev
            (s.trace ++ Event.noInterrupts :: (startEvents ++ byteEvents s.device_address .LOW))
            instruction = Level.LOW)
    (h3 : presented dev
            (s.trace ++ Event.noInterrupts ::
              (startEvents ++ (byteEvents s.device_address .LOW ++
                (byteEvents instruction .LOW ++ recvSetupEvents)))) 8
          = [l0, l1, l2, l3, l4, l5, l6, l7]) :
    callEvents s (read_value dev instruction s).2 =
      Event.noInterrupts ::
        (startEvents ++ (byteEvents s.device_address .LOW ++
          (byteEvents instruction .LOW ++
            (recvEvents [l0, l1, l2, l3, l4, l5, l6, l7] ++
              (stopEvents ++ [Event.interrupts]))))) ∧
    (read_value dev instruction s).1 =
      128 * bitOfLevel l0 + 64 * bitOfLevel l1 + 32 * bitOfLevel l2 + 16 * bitOfLevel l3 +
        8 * bitOfLevel l4 + 4 * bitOfLevel l5 + 2 * bitOfLevel l6 + bitOfLevel l7 ∧
    bitsMSB (read_value dev instruction s).1 = [l0, l1, l2, l3, l4, l5, l6, l7] ∧
    dataReads (callEvents s (read_value dev instruction s).2) =
      [.LOW, .LOW, l0, l1, l2, l3, l4, l5, l6, l7] ∧
    ([l0, l1, l2, l3, l4, l5, l6, l7] = List.replicate 8 Level.HIGH →
      (read_value dev instruction s).1 = 0xFF) := by
  have hc : callEvents s (read_value dev instruction s).2 =
      Event.noInterrupts ::
        (startEvents ++ (byteEvents s.device_address .LOW ++
          (byteEvents instruction .LOW ++
            (recvEvents [l0, l1, l2, l3, l4, l5, l6, l7] ++
              (stopEvents ++ [Event.interrupts]))))) := by
    apply callEvents_append
    simp [read_value, noInterrupts, interrupts, send_start_eq, send_data_eq, send_stop_eq,
      recv_data_eq, h1, h2, h3]
  have hv : (read_value dev instruction s).1 = shiftIn 0 [l0, l1, l2, l3, l4, l5, l6, l7] := by
    simp [read_value, noInterrupts, interrupts, send_start_eq, send_data_eq, send_stop_eq,
      recv_data_eq, h1, h2, h3]
  refine ⟨hc, ?_, ?_, ?_, ?_⟩
  · rw [hv]
    cases l0 <;> cases l1 <;> cases l2 <;> cases l3 <;> cases l4 <;> cases l5 <;> cases l6 <;>
      cases l7 <;> rfl
  · rw [hv]
    cases l0 <;> cases l1 <;> cases l2 <;> cases l3 <;> cases l4 <;> cases l5 <;> cases l6 <;>
      cases l7 <;> rfl
  · rw [hc]
    simp [dataReads, startEvents, byteEvents, dataEvents, ackSampleEvents, stopEvents,
      bitsEvents, bitsMSB, bitEvents, clockPulse, recvEvents, samplesEvents, sampleEvents]
  · intro hl
    rw [hv, hl]
    rfl

/-- Witness for C12: a device that acknowledges the two bytes sent and then
leaves the data line high; `read_value(0x92)` on a controller that was just set
up returns the received byte `0xFF`. -/
theorem read_value_returns_received_byte_witness :
    ackLevel (scriptDevice [.LOW, .LOW]) (ready.trace ++ Event.noInterrupts :: startEvents)
        ready.device_address = Level.LOW ∧
    ackLevel (scriptDevice [.LOW, .LOW])
        (ready.trace ++ Event.noInterrupts ::
          (startEvents ++ byteEvents ready.device_address .LOW)) 0x92 = Level.LOW ∧
    (read_value (scriptDevice [.LOW, .LOW]) 0x92 ready).1 = 0xFF ∧
    dataReads (callEvents ready (read_value (scriptDevice [.LOW, .LOW]) 0x92 ready).2) =
      [.LOW, .LOW, .HIGH, .HIGH, .HIGH, .HIGH, .HIGH, .HIGH, .HIGH, .HIGH] :=
  ⟨rfl, rfl,
   (read_value_returns_received_byte (scriptDevice [.LOW, .LOW]) 0x92 ready
      .HIGH .HIGH .HIGH .HIGH .HIGH .HIGH .HIGH .HIGH rfl rfl rfl).2.2.2.2 rfl,
   (read_value_returns_received_byte (scriptDevice [.LOW, .LOW]) 0x92 ready
      .HIGH .HIGH .HIGH .HIGH .HIGH .HIGH .HIGH .HIGH rfl rfl rfl).2.2.2.1⟩

/-- C13: for every byte sent, after the eighth bit `send_data` makes the data
pin an input, drives the clock high, reads the data pin exactly once (the only
read of the call, taken while the clock is high), drives the clock low and
makes the data pin an output again; it returns true exactly when the level
read is low.  The same holds of `wait_for_ack` on its own. -/
theorem send_data_samples_acknowledgement_once (dev : Device) (b : Nat) (s : Machine) :
    callEvents s (send_data dev b s).2 =
      dataEvents b ++
        [Event.pinMode .SDA .INPUT, Event.digitalWrite .SCL .HIGH,
         Event.digitalRead .SDA (ackLevel dev s.trace b),
         Event.digitalWrite .SCL .LOW, Event.pinMode .SDA .OUTPUT] ∧
    dataReadsAt s.sclLevel (callEvents s (send_data dev b s).2) =
      [(ackLevel dev s.trace b, Level.HIGH)] ∧
    ((send_data dev b s).1 = true ↔ ackLevel dev s.trace b = Level.LOW) ∧
    (send_data dev b s).2.sdaMode = Mode.OUTPUT ∧
    callEvents s (wait_for_ack dev s).2 =
      [Event.pinMode .SDA .INPUT, Event.digitalWrite .SCL .HIGH,
       Event.digitalRead .SDA (dev (s.trace ++ ackSetupEvents) .SDA),
       Event.digitalWrite .SCL .LOW, Event.pinMode .SDA .OUTPUT] ∧
    ((wait_for_ack dev s).1 = true ↔ dev (s.trace ++ ackSetupEvents) .SDA = Level.LOW) := by
  have hc : callEvents s (send_data dev b s).2 =
      dataEvents b ++ ackSampleEvents (ackLevel dev s.trace b) := by
    apply callEvents_append
    simp [send_data_eq, byteEvents]
  refine ⟨hc, ?_, ?_, ?_, ?_, ?_⟩
  · rw [hc]
    simp [dataReadsAt, withClock, dataEvents, bitsEvents, bitsMSB, bitEvents, clockPulse,
      ackSampleEvents]
  · simp [send_data_eq]
  · simp [send_data_eq]
  · apply callEvents_append
    simp [wait_for_ack, pinMode, digitalWriteFast, digitalReadFast, ackSetupEvents]
  · simp [wait_for_ack, pinMode, digitalWriteFast, digitalReadFast, ackSetupEvents]

/-- C14: `send_start` makes both pins outputs and then writes data high, clock
high, data low, the last write being made while the clock is high;
`send_stop` writes data low, clock high, data high, clock low, the write of
data high being made while the clock is high and the clock being left low. -/
theorem start_and_stop_conditions (s : Machine) :
    callEvents s (send_start s) =
      [Event.pinMode .SCL .OUTPUT, Event.pinMode .SDA .OUTPUT,
       Event.digitalWrite .SDA .HIGH, Event.digitalWrite .SCL .HIGH,
       Event.digitalWrite .SDA .LOW] ∧
    (send_start s).sclMode = Mode.OUTPUT ∧
    (send_start s).sdaMode = Mode.OUTPUT ∧
    dataWritesAt s.sclLevel (callEvents s (send_start s)) =
      [(Level.HIGH, s.sclLevel), (Level.LOW, Level.HIGH)] ∧
    callEvents s (send_stop s) =
      [Event.digitalWrite .SDA .LOW, Event.digitalWrite .SCL .HIGH,
       Event.digitalWrite .SDA .HIGH, Event.digitalWrite .SCL .LOW] ∧
    dataWritesAt s.sclLevel (callEvents s (send_stop s)) =
      [(Level.LOW, s.sclLevel), (Level.HIGH, Level.HIGH)] ∧
    (send_stop s).sclLevel = Level.LOW ∧
    (send_stop s).sdaLevel = Level.HIGH := by
  have h1 : callEvents s (send_start s) = startEvents := by
    apply callEvents_append
    simp [send_start_eq]
  have h2 : callEvents s (send_stop s) = stopEvents := by
    apply callEvents_append
    simp [send_stop_eq]
  rw [h1, h2]
  refine ⟨rfl, ?_, ?_, ?_, rfl, ?_, ?_, ?_⟩
  · simp [send_start_eq]
  · simp [send_start_eq]
  · simp [dataWritesAt, withClock, startEvents]
  · simp [dataWritesAt, withClock, stopEvents]
  · simp [send_stop_eq]
  · simp [send_stop_eq]

/-! ## Shape of a transaction, for every device -/

/-- Eight successive samples are eight levels. -/
theorem presented_eight (dev : Device) (h : List Event) :
    ∃ l0 l1 l2 l3 l4 l5 l6 l7 : Level, presented dev h 8 = [l0, l1, l2, l3, l4, l5, l6, l7] :=
  ⟨_, _, _, _, _, _, _, _, rfl⟩

/-- Whatever the device does, a call of `write_instruction` records one of the
transaction shapes, leaves the bus idle and keeps the stored address. -/
theorem write_instruction_shape (dev : Device) (i : Nat) (s : Machine) :
    Transcript s.device_address (callEvents s (write_instruction dev i s)) ∧
    busState (write_instruction dev i s) = (.OUTPUT, .OUTPUT, .LOW, .HIGH) ∧
    (write_instruction dev i s).device_address = s.device_address := by
  cases h1 : ackLevel dev (s.trace ++ Event.noInterrupts :: startEvents) s.device_address
  · cases h2 : ackLevel dev
        (s.trace ++ Event.noInterrupts :: (startEvents ++ byteEvents s.device_address .LOW)) i
    · have ht : (write_instruction dev i s).trace = s.trace ++ (Event.noInterrupts ::
          (startEvents ++ (byteEvents s.device_address .LOW ++
            (byteEvents i .LOW ++ (stopEvents ++ [Event.interrupts]))))) := by
        simp [write_instruction, noInterrupts, interrupts, send_start_eq, send_data_eq,
          send_stop_eq, h1, h2]
      rw [callEvents_append s _ _ ht]
      refine ⟨Transcript.instructionOnly i, ?_, ?_⟩ <;>
        simp [write_instruction, noInterrupts, interrupts, send_start_eq, send_data_eq,
          send_stop_eq, busState, h1, h2]
    · have ht : (write_instruction dev i s).trace = s.trace ++ (Event.noInterrupts ::
          (startEvents ++ (byteEvents s.device_address .LOW ++
            (byteEvents i .HIGH ++ stopEvents)))) := by
        simp [write_instruction, noInterrupts, interrupts, send_start_eq, send_data_eq,
          send_stop_eq, h1, h2]
      rw [callEvents_append s _ _ ht]
      refine ⟨Transcript.instructionNack i, ?_, ?_⟩ <;>
        simp [write_instruction, noInterrupts, interrupts, send_start_eq, send_data_eq,
          send_stop_eq, busState, h1, h2]
  · have ht : (write_instruction dev i s).trace = s.trace ++ (Event.noInterrupts ::
        (startEvents ++ (byteEvents s.device_address .HIGH ++ stopEvents))) := by
      simp [write_instruction, noInterrupts, interrupts, send_start_eq, send_data_eq,
        send_stop_eq, h1]
    rw [callEvents_append s _ _ ht]
    refine ⟨Transcript.addressNack, ?_, ?_⟩ <;>
      simp [write_instruction, noInterrupts, interrupts, send_start_eq, send_data_eq,
        send_stop_eq, busState, h1]

/-- Whatever the device does, a call of `write_value` records one of the
transaction shapes, leaves the bus idle and keeps the stored address. -/
theorem write_value_shape (dev : Device) (i v : Nat) (s : Machine) :
    Transcript s.device_address (callEvents s (write_value dev i v s)) ∧
    busState (write_value dev i v s) = (.OUTPUT, .OUTPUT, .LOW, .HIGH) ∧
    (write_value dev i v s).device_address = s.device_address := by
  cases h1 : ackLevel dev (s.trace ++ Event.noInterrupts :: startEvents) s.device_address
  · cases h2 : ackLevel dev
        (s.trace ++ Event.noInterrupts :: (startEvents ++ byteEvents s.device_address .LOW)) i
    · cases h3 : ackLevel dev
          (s.trace ++ Event.noInterrupts ::
            (startEvents ++ (byteEvents s.device_address .LOW ++ byteEvents i .LOW))) v
      · have ht : (write_value dev i v s).trace = s.trace ++ (Event.noInterrupts ::
            (startEvents ++ (byteEvents s.device_address .LOW ++ (byteEvents i .LOW ++
              (byteEvents v .LOW ++ (stopEvents ++ [Event.interrupts])))))) := by
          simp [write_value, noInterrupts, interrupts, send_start_eq, send_data_eq,
            send_stop_eq, h1, h2, h3]
        rw [callEvents_append s _ _ ht]
        refine ⟨Transcript.valueAck i v, ?_, ?_⟩ <;>
          simp [write_value, noInterrupts, interrupts, send_start_eq, send_data_eq,
            send_stop_eq, busState, h1, h2, h3]
      · have ht : (write_value dev i v s).trace = s.trace ++ (Event.noInterrupts ::
            (startEvents ++ (byteEvents s.device_address .LOW ++ (byteEvents i .LOW ++
              (byteEvents v .HIGH ++ stopEvents))))) := by
          simp [write_value, noInterrupts, interrupts, send_start_eq, send_data_eq,
            send_stop_eq, h1, h2, h3]
        rw [callEvents_append s _ _ ht]
        refine ⟨Transcript.valueNack i v, ?_, ?_⟩ <;>
          simp [write_value, noInterrupts, interrupts, send_start_eq, send_data_eq,
            send_stop_eq, busState, h1, h2, h3]
    · have ht : (write_value dev i v s).trace = s.trace ++ (Event.noInterrupts ::
          (startEvents ++ (byteEvents s.device_address .LOW ++
            (byteEvents i .HIGH ++ stopEvents)))) := by
        simp [write_value, noInterrupts, interrupts, send_start_eq, send_data_eq,
          send_stop_eq, h1, h2]
      rw [callEvents_append s _ _ ht]
      refine ⟨Transcript.instructionNack i, ?_, ?_⟩ <;>
        simp [write_value, noInterrupts, interrupts, send_start_eq, send_data_eq,
          send_stop_eq, busState, h1, h2]
  · have ht : (write_value dev i v s).trace = s.trace ++ (Event.noInterrupts ::
        (startEvents ++ (byteEvents s.device_address .HIGH ++ stopEvents))) := by
      simp [write_value, noInterrupts, interrupts, send_start_eq, send_data_eq,
        send_stop_eq, h1]
    rw [callEvents_append s _ _ ht]
    refine ⟨Transcript.addressNack, ?_, ?_⟩ <;>
      simp [write_value, noInterrupts, interrupts, send_start_eq, send_data_eq,
        send_stop_eq, busState, h1]

/-- Whatever the device does, a call of `read_value` records one of the
transaction shapes, leaves the bus idle and keeps the stored address. -/
theorem read_value_shape (dev : Device) (i : Nat) (s : Machine) :
    Transcript s.device_address (callEvents s (read_value dev i s).2) ∧
    busState (read_value dev i s).2 = (.OUTPUT, .OUTPUT, .LOW, .HIGH) ∧
    (read_value dev i s).2.device_address = s.device_address := by
  cases h1 : ackLevel dev (s.trace ++ Event.noInterrupts :: startEvents) s.device_address
  · cases h2 : ackLevel dev
        (s.trace ++ Event.noInterrupts :: (startEvents ++ byteEvents s.device_address .LOW)) i
    · obtain ⟨l0, l1, l2, l3, l4, l5, l6, l7, h3⟩ := presented_eight dev
        (s.trace ++ Event.noInterrupts ::
          (startEvents ++ (byteEvents s.device_address .LOW ++
            (byteEvents i .LOW ++ recvSetupEvents))))
      have ht : (read_value dev i s).2.trace = s.trace ++ (Event.noInterrupts ::
          (startEvents ++ (byteEvents s.device_address .LOW ++ (byteEvents i .LOW ++
            (recvEvents [l0, l1, l2, l3, l4, l5, l6, l7] ++
              (stopEvents ++ [Event.interrupts])))))) := by
        simp [read_value, noInterrupts, interrupts, send_start_eq, send_data_eq,
          send_stop_eq, recv_data_eq, h1, h2, h3]
      rw [callEvents_append s _ _ ht]
      refine ⟨Transcript.read i l0 l1 l2 l3 l4 l5 l6 l7, ?_, ?_⟩ <;>
        simp [read_value, noInterrupts, interrupts, send_start_eq, send_data_eq,
          send_stop_eq, recv_data_eq, busState, h1, h2]
    · have ht : (read_value dev i s).2.trace = s.trace ++ (Event.noInterrupts ::
          (startEvents ++ (byteEvents s.device_address .LOW ++
            (byteEvents i .HIGH ++ stopEvents)))) := by
        simp [read_value, noInterrupts, interrupts, send_start_eq, send_data_eq,
          send_stop_eq, h1, h2]
      rw [callEvents_append s _ _ ht]
      refine ⟨Transcript.instructionNack i, ?_, ?_⟩ <;>
        simp [read_value, noInterrupts, interrupts, send_start_eq, send_data_eq,
          send_stop_eq, busState, h1, h2]
  · have ht : (read_value dev i s).2.trace = s.trace ++ (Event.noInterrupts ::
        (startEvents ++ (byteEvents s.device_address .HIGH ++ stopEvents))) := by
      simp [read_value, noInterrupts, interrupts, send_start_eq, send_data_eq,
        send_stop_eq, h1]
    rw [callEvents_append s _ _ ht]
    refine ⟨Transcript.addressNack, ?_, ?_⟩ <;>
      simp [read_value, noInterrupts, interrupts, send_start_eq, send_data_eq,
        send_stop_eq, busState, h1]

/-- Every public operation runs its transaction routine with its instruction
byte. -/
theorem runOp_eq_runWith (dev : Device) (op : Op) (s : Machine) :
    runOp dev op s = runWith dev op (instructionOf op) s := by
  cases op <;> rfl

/-- Whatever the device does, a call of a public operation records one of the
transaction shapes, leaves the bus idle and keeps the stored address. -/
theorem runOp_shape (dev : Device) (op : Op) (s : Machine) :
    Transcript s.device_address (callEvents s (runOp dev op s)) ∧
    busState (runOp dev op s) = (.OUTPUT, .OUTPUT, .LOW, .HIGH) ∧
    (runOp dev op s).device_address = s.device_address := by
  rw [runOp_eq_runWith]
  cases op with
  | getWiper w => exact read_value_shape dev _ s
  | setWiper w v => exact write_value_shape dev _ v s
  | getMemory w m => exact read_value_shape dev _ s
  | setMemory w m v => exact write_value_shape dev _ v s
  | xfrMemoryToWiper w m => exact write_instruction_shape dev _ s
  | xfrWiperToMemory w m => exact write_instruction_shape dev _ s
  | globalXfrMemoryToWiper m => exact write_instruction_shape dev _ s
  | globalXfrWiperToMemory m => exact write_instruction_shape dev _ s
  | enableIncDecWiper w x => exact write_value_shape dev _ x s

/-- What can be read off any transaction shape: starting with the clock low
there is exactly one start condition followed by exactly one stop condition;
the line activity is the start condition, a middle part and the stop
condition, the middle part containing no condition and no write of the data
pin while the clock is high; the only writes of the data pin while the clock is
high are the low write of the start condition and the high write of the stop
condition; the first eight clocked bits are those of the stored address. -/
theorem transcript_observations (a : Nat) (es : List Event) (h : Transcript a es) :
    (∀ sda : Level, busConditions .LOW sda es = [BusCondition.start, BusCondition.stop]) ∧
    (∃ mid : List Event,
      lineActivity es = startEvents ++ (mid ++ stopEvents) ∧
      busConditions .HIGH .LOW mid = [] ∧
      (∀ p ∈ dataWritesAt .HIGH mid, p.2 = Level.LOW)) ∧
    (dataWritesAt .LOW es).filter (fun p => decide (p.2 = Level.HIGH)) =
      [(Level.LOW, Level.HIGH), (Level.HIGH, Level.HIGH)] ∧
    (clockedBits es).take 8 = bitsMSB a := by
  cases h with
  | addressNack =>
    refine ⟨?_, ⟨byteEvents a .HIGH, ?_, ?_, ?_⟩, ?_, ?_⟩
    · intro sda
      simp [busConditions, startEvents, stopEvents, byteEvents, dataEvents, ackSampleEvents,
      bitsEvents, bitsMSB, bitEvents, clockPulse, recvEvents, samplesEvents, sampleEvents]
    · simp [lineActivity, startEvents, stopEvents, byteEvents, dataEvents, ackSampleEvents,
      bitsEvents, bitsMSB, bitEvents, clockPulse, recvEvents, samplesEvents, sampleEvents]
    · simp [busConditions, startEvents, stopEvents, byteEvents, dataEvents, ackSampleEvents,
      bitsEvents, bitsMSB, bitEvents, clockPulse, recvEvents, samplesEvents, sampleEvents]
    · simp [dataWritesAt, withClock, startEvents, stopEvents, byteEvents, dataEvents, ackSampleEvents,
      bitsEvents, bitsMSB, bitEvents, clockPulse, recvEvents, samplesEvents, sampleEvents]
    · simp [dataWritesAt, withClock, startEvents, stopEvents, byteEvents, dataEvents, ackSampleEvents,
      bitsEvents, bitsMSB, bitEvents, clockPulse, recvEvents, samplesEvents, sampleEvents]
    · simp [clockedBits, startEvents, stopEvents, byteEvents, dataEvents, ackSampleEvents,
      bitsEvents, bitsMSB, bitEvents, clockPulse, recvEvents, samplesEvents, sampleEvents]
  | instructionNack i =>
    refine ⟨?_, ⟨byteEvents a .LOW ++ byteEvents i .HIGH, ?_, ?_, ?_⟩, ?_, ?_⟩
    · intro sda
      simp [busConditions, startEvents, stopEvents, byteEvents, dataEvents, ackSampleEvents,
      bitsEvents, bitsMSB, bitEvents, clockPulse, recvEvents, samplesEvents, sampleEvents]
    · simp [lineActivity, startEvents, stopEvents, byteEvents, dataEvents, ackSampleEvents,
      bitsEvents, bitsMSB, bitEvents, clockPulse, recvEvents, samplesEvents, sampleEvents]
    · simp [busConditions, startEvents, stopEvents, byteEvents, dataEvents, ackSampleEvents,
      bitsEvents, bitsMSB, bitEvents, clockPulse, recvEvents, samplesEvents, sampleEvents]
    · simp [dataWritesAt, withClock, startEvents, stopEvents, byteEvents, dataEvents, ackSampleEvents,
      bitsEvents, bitsMSB, bitEvents, clockPulse, recvEvents, samplesEvents, sampleEvents]
    · simp [dataWritesAt, withClock, startEvents, stopEvents, byteEvents, dataEvents, ackSampleEvents,
      bitsEvents, bitsMSB, bitEvents, clockPulse, recvEvents, samplesEvents, sampleEvents]
    · simp [clockedBits, startEvents, stopEvents, byteEvents, dataEvents, ackSampleEvents,
      bitsEvents, bitsMSB, bitEvents, clockPulse, recvEvents, samplesEvents, sampleEvents]
  | instructionOnly i =>
    refine ⟨?_, ⟨byteEvents a .LOW ++ byteEvents i .LOW, ?_, ?_, ?_⟩, ?_, ?_⟩
    · intro sda
      simp [busConditions, startEvents, stopEvents, byteEvents, dataEvents, ackSampleEvents,
      bitsEvents, bitsMSB, bitEvents, clockPulse, recvEvents, samplesEvents, sampleEvents]
    · simp [lineActivity, startEvents, stopEvents, byteEvents, dataEvents, ackSampleEvents,
      bitsEvents, bitsMSB, bitEvents, clockPulse, recvEvents, samplesEvents, sampleEvents]
    · simp [busConditions, startEvents, stopEvents, byteEvents, dataEvents, ackSampleEvents,
      bitsEvents, bitsMSB, bitEvents, clockPulse, recvEvents, samplesEvents, sampleEvents]
    · simp [dataWritesAt, withClock, startEvents, stopEvents, byteEvents, dataEvents, ackSampleEvents,
      bitsEvents, bitsMSB, bitEvents, clockPulse, recvEvents, samplesEvents, sampleEvents]
    · simp [dataWritesAt, withClock, startEvents, stopEvents, byteEvents, dataEvents, ackSampleEvents,
      bitsEvents, bitsMSB, bitEvents, clockPulse, recvEvents, samplesEvents, sampleEvents]
    · simp [clockedBits, startEvents, stopEvents, byteEvents, dataEvents, ackSampleEvents,
      bitsEvents, bitsMSB, bitEvents, clockPulse, recvEvents, samplesEvents, sampleEvents]
  | valueNack i v =>
    refine ⟨?_, ⟨byteEvents a .LOW ++ (byteEvents i .LOW ++ byteEvents v .HIGH), ?_, ?_, ?_⟩, ?_, ?_⟩
    · intro sda
      simp [busConditions, startEvents, stopEvents, byteEvents, dataEvents, ackSampleEvents,
      bitsEvents, bitsMSB, bitEvents, clockPulse, recvEvents, samplesEvents, sampleEvents]
    · simp [lineActivity, startEvents, stopEvents, byteEvents, dataEvents, ackSampleEvents,
      bitsEvents, bitsMSB, bitEvents, clockPulse, recvEvents, samplesEvents, sampleEvents]
    · simp [busConditions, startEvents, stopEvents, byteEvents, dataEvents, ackSampleEvents,
      bitsEvents, bitsMSB, bitEvents, clockPulse, recvEvents, samplesEvents, sampleEvents]
    · simp [dataWritesAt, withClock, startEvents, stopEvents, byteEvents, dataEvents, ackSampleEvents,
      bitsEvents, bitsMSB, bitEvents, clockPulse, recvEvents, samplesEvents, sampleEvents]
    · simp [dataWritesAt, withClock, startEvents, stopEvents, byteEvents, dataEvents, ackSampleEvents,
      bitsEvents, bitsMSB, bitEvents, clockPulse, recvEvents, samplesEvents, sampleEvents]
    · simp [clockedBits, startEvents, stopEvents, byteEvents, dataEvents, ackSampleEvents,
      bitsEvents, bitsMSB, bitEvents, clockPulse, recvEvents, samplesEvents, sampleEvents]
  | valueAck i v =>
    refine ⟨?_, ⟨byteEvents a .LOW ++ (byteEvents i .LOW ++ byteEvents v .LOW), ?_, ?_, ?_⟩, ?_, ?_⟩
    · intro sda
      simp [busConditions, startEvents, stopEvents, byteEvents, dataEvents, ackSampleEvents,
      bitsEvents, bitsMSB, bitEvents, clockPulse, recvEvents, samplesEvents, sampleEvents]
    · simp [lineActivity, startEvents, stopEvents, byteEvents, dataEvents, ackSampleEvents,
      bitsEvents, bitsMSB, bitEvents, clockPulse, recvEvents, samplesEvents, sampleEvents]
    · simp [busConditions, startEvents, stopEvents, byteEvents, dataEvents, ackSampleEvents,
      bitsEvents, bitsMSB, bitEvents, clockPulse, recvEvents, samplesEvents, sampleEvents]
    · simp [dataWritesAt, withClock, startEvents, stopEvents, byteEvents, dataEvents, ackSampleEvents,
      bitsEvents, bitsMSB, bitEvents, clockPulse, recvEvents, samplesEvents, sampleEvents]
    · simp [dataWritesAt, withClock, startEvents, stopEvents, byteEvents, dataEvents, ackSampleEvents,
      bitsEvents, bitsMSB, bitEvents, clockPulse, recvEvents, samplesEvents, sampleEvents]
    · simp [clockedBits, startEvents, stopEvents, byteEvents, dataEvents, ackSampleEvents,
      bitsEvents, bitsMSB, bitEvents, clockPulse, recvEvents, samplesEvents, sampleEvents]
  | read i l0 l1 l2 l3 l4 l5 l6 l7 =>
    refine ⟨?_, ⟨byteEvents a .LOW ++ (byteEvents i .LOW ++ recvEvents [l0, l1, l2, l3, l4, l5, l6, l7]), ?_, ?_, ?_⟩, ?_, ?_⟩
    · intro sda
      simp [busConditions, startEvents, stopEvents, byteEvents, dataEvents, ackSampleEvents,
      bitsEvents, bitsMSB, bitEvents, clockPulse, recvEvents, samplesEvents, sampleEvents]
    · simp [lineActivity, startEvents, stopEvents, byteEvents, dataEvents, ackSampleEvents,
      bitsEvents, bitsMSB, bitEvents, clockPulse, recvEvents, samplesEvents, sampleEvents]
    · simp [busConditions, startEvents, stopEvents, byteEvents, dataEvents, ackSampleEvents,
      bitsEvents, bitsMSB, bitEvents, clockPulse, recvEvents, samplesEvents, sampleEvents]
    · simp [dataWritesAt, withClock, startEvents, stopEvents, byteEvents, dataEvents, ackSampleEvents,
      bitsEvents, bitsMSB, bitEvents, clockPulse, recvEvents, samplesEvents, sampleEvents]
    · simp [dataWritesAt, withClock, startEvents, stopEvents, byteEvents, dataEvents, ackSampleEvents,
      bitsEvents, bitsMSB, bitEvents, clockPulse, recvEvents, samplesEvents, sampleEvents]
    · simp [clockedBits, startEvents, stopEvents, byteEvents, dataEvents, ackSampleEvents,
      bitsEvents, bitsMSB, bitEvents, clockPulse, recvEvents, samplesEvents, sampleEvents]

/-- In every state the public interface can produce, the clock pin is driven
low. -/
theorem reachable_clock_low {s : Machine} (h : Reachable s) : s.sclLevel = Level.LOW := by
  induction h with
  | new => rfl
  | newWithAddress a => rfl
  | setup _ _ => simp [setup, pinMode, digitalWriteFast]
  | setAddress sel _ ih => simpa [setAddress] using ih
  | @runOp t dev op _ _ =>
    have hb := (runOp_shape dev op t).2.1
    simp only [busState, Prod.mk.injEq] at hb
    exact hb.2.2.1

/-- The address stored by `setAddress`. -/
theorem setAddress_device_address (sel : Nat) (s : Machine) :
    (setAddress sel s).device_address = 0x50 ||| (sel &&& 0x0F) := by
  have hm : sel &&& 0x0F = sel % 16 := Nat.and_pow_two_sub_one_eq_mod sel 4
  have hlt : sel % 16 < 16 := Nat.mod_lt _ (by decide)
  simp only [setAddress, X9258_DEVICE_TYPE, hm]
  generalize sel % 16 = k at hlt
  interval_cases k <;> rfl

/-- A sequence of public operations keeps the stored address. -/
theorem runAll_device_address (dev : Device) (ops : List Op) :
    ∀ s : Machine, (runAll dev ops s).device_address = s.device_address := by
  induction ops with
  | nil => intro s; rfl
  | cons op ops ih =>
    intro s
    simp only [runAll]
    rw [ih, (runOp_shape dev op s).2.2]

/-- C15: for every public transaction operation, called in any state the public
interface can produce and against any device (any acknowledgement behaviour),
the events of the call contain exactly one start condition and exactly one
stop condition, in this order; the line activity of the call is the start
condition, then a middle part holding all bit transfers and containing no
start or stop condition, then the stop condition, which ends the line
activity. -/
theorem every_transaction_one_start_one_stop (dev : Device) (op : Op) (s : Machine)
    (hs : Reachable s) :
    busConditions s.sclLevel s.sdaLevel (callEvents s (runOp dev op s)) =
      [BusCondition.start, BusCondition.stop] ∧
    (∃ mid : List Event,
      lineActivity (callEvents s (runOp dev op s)) = startEvents ++ (mid ++ stopEvents) ∧
      busConditions .HIGH .LOW mid = [] ∧
      clockedBits (callEvents s (runOp dev op s)) = clockedBits mid ∧
      dataReads (callEvents s (runOp dev op s)) = dataReads mid) := by
  have hsh := (runOp_shape dev op s).1
  have hscl := reachable_clock_low hs
  have ho := transcript_observations _ _ hsh
  refine ⟨?_, ?_⟩
  · rw [hscl]
    exact ho.1 s.sdaLevel
  · generalize callEvents s (runOp dev op s) = es at hsh
    cases hsh with
    | addressNack =>
      refine ⟨byteEvents s.device_address .HIGH, ?_, ?_, ?_, ?_⟩ <;>
        simp [lineActivity, busConditions, clockedBits, dataReads, startEvents, stopEvents,
          byteEvents, dataEvents, ackSampleEvents, bitsEvents, bitsMSB, bitEvents, clockPulse]
    | instructionNack i =>
      refine ⟨byteEvents s.device_address .LOW ++ byteEvents i .HIGH, ?_, ?_, ?_, ?_⟩ <;>
        simp [lineActivity, busConditions, clockedBits, dataReads, startEvents, stopEvents,
          byteEvents, dataEvents, ackSampleEvents, bitsEvents, bitsMSB, bitEvents, clockPulse]
    | instructionOnly i =>
      refine ⟨byteEvents s.device_address .LOW ++ byteEvents i .LOW, ?_, ?_, ?_, ?_⟩ <;>
        simp [lineActivity, busConditions, clockedBits, dataReads, startEvents, stopEvents,
          byteEvents, dataEvents, ackSampleEvents, bitsEvents, bitsMSB, bitEvents, clockPulse]
    | valueNack i v =>
      refine ⟨byteEvents s.device_address .LOW ++ (byteEvents i .LOW ++ byteEvents v .HIGH),
        ?_, ?_, ?_, ?_⟩ <;>
        simp [lineActivity, busConditions, clockedBits, dataReads, startEvents, stopEvents,
          byteEvents, dataEvents, ackSampleEvents, bitsEvents, bitsMSB, bitEvents, clockPulse]
    | valueAck i v =>
      refine ⟨byteEvents s.device_address .LOW ++ (byteEvents i .LOW ++ byteEvents v .LOW),
        ?_, ?_, ?_, ?_⟩ <;>
        simp [lineActivity, busConditions, clockedBits, dataReads, startEvents, stopEvents,
          byteEvents, dataEvents, ackSampleEvents, bitsEvents, bitsMSB, bitEvents, clockPulse]
    | read i l0 l1 l2 l3 l4 l5 l6 l7 =>
      refine ⟨byteEvents s.device_address .LOW ++ (byteEvents i .LOW ++
        recvEvents [l0, l1, l2, l3, l4, l5, l6, l7]), ?_, ?_, ?_, ?_⟩ <;>
        simp [lineActivity, busConditions, clockedBits, dataReads, startEvents, stopEvents,
          byteEvents, dataEvents, ackSampleEvents, bitsEvents, bitsMSB, bitEvents, clockPulse,
          recvEvents, samplesEvents, sampleEvents]

/-- Witness for C15: `getWiper(2)` with no device on the bus, on a controller
that was constructed and set up. -/
theorem every_transaction_one_start_one_stop_witness :
    Reachable ready ∧
    busConditions ready.sclLevel ready.sdaLevel
        (callEvents ready (runOp absentDevice (.getWiper 2) ready)) =
      [BusCondition.start, BusCondition.stop] :=
  ⟨Reachable.setup Reachable.new,
   (every_transaction_one_start_one_stop absentDevice (.getWiper 2) ready
      (Reachable.setup Reachable.new)).1⟩

/-- C16: after `setAddress(sel)`, and after any sequence of public transaction
operations that follows it, the first eight bits clocked out by the next
public transaction operation are those of `0x50 | (sel & 0x0F)`, whatever the
device does; a controller constructed without an explicit address (set up or
not) sends `0x50`. -/
theorem address_byte_follows_setAddress (dev : Device) (sel : Nat) (s : Machine)
    (ops : List Op) (op : Op) :
    (clockedBits (callEvents (runAll dev ops (setAddress sel s))
        (runOp dev op (runAll dev ops (setAddress sel s))))).take 8 =
      bitsMSB (0x50 ||| (sel &&& 0x0F)) ∧
    (runAll dev ops (setAddress sel s)).device_address = 0x50 ||| (sel &&& 0x0F) ∧
    (clockedBits (callEvents (runAll dev ops new) (runOp dev op (runAll dev ops new)))).take 8 =
      bitsMSB 0x50 ∧
    (clockedBits (callEvents (runAll dev ops (setup new))
        (runOp dev op (runAll dev ops (setup new))))).take 8 = bitsMSB 0x50 := by
  have key : ∀ t : Machine,
      (clockedBits (callEvents (runAll dev ops t) (runOp dev op (runAll dev ops t)))).take 8 =
        bitsMSB t.device_address := by
    intro t
    have h := (transcript_observations _ _ (runOp_shape dev op (runAll dev ops t)).1).2.2.2
    rw [runAll_device_address] at h
    exact h
  refine ⟨?_, ?_, ?_, ?_⟩
  · rw [key, setAddress_device_address]
  · rw [runAll_device_address, setAddress_device_address]
  · rw [key]
    rfl
  · rw [key]
    rfl

/-- C18: for every public transaction operation called with the clock pin
driven low, against any device, the writes of the data pin made while the clock
pin is driven high are exactly two, in this order: the low write of the start
condition and the high write of the stop condition.  Between the start and
stop conditions (data bits, acknowledgement of the controller) every write of
the data pin is made while the clock is low. -/
theorem data_written_at_high_clock_only_by_start_and_stop (dev : Device) (op : Op)
    (s : Machine) (hs : s.sclLevel = Level.LOW) :
    (dataWritesAt s.sclLevel (callEvents s (runOp dev op s))).filter
        (fun p => decide (p.2 = Level.HIGH)) =
      [(Level.LOW, Level.HIGH), (Level.HIGH, Level.HIGH)] ∧
    (∃ mid : List Event,
      lineActivity (callEvents s (runOp dev op s)) = startEvents ++ (mid ++ stopEvents) ∧
      (∀ p ∈ dataWritesAt .HIGH mid, p.2 = Level.LOW)) := by
  have ho := transcript_observations _ _ (runOp_shape dev op s).1
  refine ⟨?_, ?_⟩
  · rw [hs]
    exact ho.2.2.1
  · obtain ⟨mid, h1, _, h3⟩ := ho.2.1
    exact ⟨mid, h1, h3⟩

/-- Witness for C18: `setWiper(1, 0xB2)` against a device that acknowledges
every byte, on a controller that was constructed and set up. -/
theorem data_written_at_high_clock_only_by_start_and_stop_witness :
    ready.sclLevel = Level.LOW ∧
    (dataWritesAt ready.sclLevel
        (callEvents ready (runOp lowDevice (.setWiper 1 0xB2) ready))).filter
        (fun p => decide (p.2 = Level.HIGH)) =
      [(Level.LOW, Level.HIGH), (Level.HIGH, Level.HIGH)] :=
  ⟨rfl, (data_written_at_high_clock_only_by_start_and_stop lowDevice (.setWiper 1 0xB2) ready
    rfl).1⟩

/-- C19: whatever the device does, when a public transaction operation
returns, and when any of the three transaction routines returns, both pins are
outputs, the clock pin was last driven low and the data pin was last driven
high; this is the state of the pins that `setup()` establishes. -/
theorem bus_idle_after_every_operation (dev : Device) (op : Op) (i v : Nat) (s t : Machine) :
    busState (runOp dev op s) = (Mode.OUTPUT, Mode.OUTPUT, Level.LOW, Level.HIGH) ∧
    busState (write_instruction dev i s) = (Mode.OUTPUT, Mode.OUTPUT, Level.LOW, Level.HIGH) ∧
    busState (write_value dev i v s) = (Mode.OUTPUT, Mode.OUTPUT, Level.LOW, Level.HIGH) ∧
    busState (read_value dev i s).2 = (Mode.OUTPUT, Mode.OUTPUT, Level.LOW, Level.HIGH) ∧
    busState (setup t) = (Mode.OUTPUT, Mode.OUTPUT, Level.LOW, Level.HIGH) ∧
    busState (runOp dev op s) = busState (setup t) := by
  have h0 := (runOp_shape dev op s).2.1
  have hsetup : busState (setup t) = (Mode.OUTPUT, Mode.OUTPUT, Level.LOW, Level.HIGH) := by
    simp [busState, setup, pinMode, digitalWriteFast]
  exact ⟨h0, (write_instruction_shape dev i s).2.1, (write_value_shape dev i v s).2.1,
    (read_value_shape dev i s).2.1, hsetup, h0.trans hsetup.symm⟩

/-! ## Instruction encoding -/

/-- The upper nibble of the instruction byte of a call is the opcode nibble of
its class, whatever the operands. -/
theorem instruction_nibble (op : Op) : instructionOf op / 16 = opcodeOf (classOf op) / 16 := by
  cases op with
  | getWiper w =>
    have hw := Nat.mod_lt w (show 0 < 4 by decide)
    simp only [instructionOf, classOf, opcodeOf, X9258_READ_WIPER, and_three_eq_mod]
    generalize w % 4 = k at hw
    interval_cases k <;> rfl
  | setWiper w v =>
    have hw := Nat.mod_lt w (show 0 < 4 by decide)
    simp only [instructionOf, classOf, opcodeOf, X9258_WRITE_WIPER, and_three_eq_mod]
    generalize w % 4 = k at hw
    interval_cases k <;> rfl
  | getMemory w m =>
    have hw := Nat.mod_lt w (show 0 < 4 by decide)
    have hm := Nat.mod_lt m (show 0 < 4 by decide)
    simp only [instructionOf, classOf, opcodeOf, X9258_READ_MEMORY, and_three_eq_mod]
    generalize w % 4 = k at hw
    generalize m % 4 = j at hm
    interval_cases k <;> interval_cases j <;> rfl
  | setMemory w m v =>
    have hw := Nat.mod_lt w (show 0 < 4 by decide)
    have hm := Nat.mod_lt m (show 0 < 4 by decide)
    simp only [instructionOf, classOf, opcodeOf, X9258_WRITE_MEMORY, and_three_eq_mod]
    generalize w % 4 = k at hw
    generalize m % 4 = j at hm
    interval_cases k <;> interval_cases j <;> rfl
  | xfrMemoryToWiper w m =>
    have hw := Nat.mod_lt w (show 0 < 4 by decide)
    have hm := Nat.mod_lt m (show 0 < 4 by decide)
    simp only [instructionOf, classOf, opcodeOf, X9258_XFR_MEMORY_TO_WIPER, and_three_eq_mod]
    generalize w % 4 = k at hw
    generalize m % 4 = j at hm
    interval_cases k <;> interval_cases j <;> rfl
  | xfrWiperToMemory w m =>
    have hw := Nat.mod_lt w (show 0 < 4 by decide)
    have hm := Nat.mod_lt m (show 0 < 4 by decide)
    simp only [instructionOf, classOf, opcodeOf, X9258_XFR_WIPER_TO_MEMORY, and_three_eq_mod]
    generalize w % 4 = k at hw
    generalize m % 4 = j at hm
    interval_cases k <;> interval_cases j <;> rfl
  | globalXfrMemoryToWiper m =>
    have hm := Nat.mod_lt m (show 0 < 4 by decide)
    simp only [instructionOf, classOf, opcodeOf, X9258_GLOBAL_XFR_MEMORY_TO_WIPER,
      and_three_eq_mod]
    generalize m % 4 = j at hm
    interval_cases j <;> rfl
  | globalXfrWiperToMemory m =>
    have hm := Nat.mod_lt m (show 0 < 4 by decide)
    simp only [instructionOf, classOf, opcodeOf, X9258_GLOBAL_XFR_WIPER_TO_MEMORY,
      and_three_eq_mod]
    generalize m % 4 = j at hm
    interval_cases j <;> rfl
  | enableIncDecWiper w x =>
    have hw := Nat.mod_lt w (show 0 < 4 by decide)
    simp only [instructionOf, classOf, opcodeOf, X9258_INC_DEC_WIPER, and_three_eq_mod]
    generalize w % 4 = k at hw
    interval_cases k <;> rfl

/-- The nine opcode nibbles are pairwise distinct. -/
theorem opcode_nibble_injective (c1 c2 : OpClass)
    (h : opcodeOf c1 / 16 = opcodeOf c2 / 16) : c1 = c2 := by
  cases c1 <;> cases c2 <;> first | rfl | exact absurd h (by decide)

/-- A wiper index in `0..3` is the two low bits of the instruction byte. -/
theorem instruction_wiper (op : Op) (h : IndicesInRange op) (w : Nat)
    (hw : wiperOf op = some w) : instructionOf op &&& 3 = w := by
  cases op with
  | getWiper a =>
    have ha : a < 4 := h.1 a rfl
    simp only [wiperOf, Option.some.injEq] at hw
    subst hw
    interval_cases a <;>
      (simp only [instructionOf, X9258_READ_WIPER, X9258_WRITE_WIPER, X9258_READ_MEMORY,
      X9258_WRITE_MEMORY, X9258_XFR_MEMORY_TO_WIPER, X9258_XFR_WIPER_TO_MEMORY,
      X9258_GLOBAL_XFR_MEMORY_TO_WIPER, X9258_GLOBAL_XFR_WIPER_TO_MEMORY, X9258_INC_DEC_WIPER]; rfl)
  | setWiper a v =>
    have ha : a < 4 := h.1 a rfl
    simp only [wiperOf, Option.some.injEq] at hw
    subst hw
    interval_cases a <;>
      (simp only [instructionOf, X9258_READ_WIPER, X9258_WRITE_WIPER, X9258_READ_MEMORY,
      X9258_WRITE_MEMORY, X9258_XFR_MEMORY_TO_WIPER, X9258_XFR_WIPER_TO_MEMORY,
      X9258_GLOBAL_XFR_MEMORY_TO_WIPER, X9258_GLOBAL_XFR_WIPER_TO_MEMORY, X9258_INC_DEC_WIPER]; rfl)
  | getMemory a m =>
    have ha : a < 4 := h.1 a rfl
    have hm : m < 4 := h.2 m rfl
    simp only [wiperOf, Option.some.injEq] at hw
    subst hw
    interval_cases a <;> interval_cases m <;>
      (simp only [instructionOf, X9258_READ_WIPER, X9258_WRITE_WIPER, X9258_READ_MEMORY,
      X9258_WRITE_MEMORY, X9258_XFR_MEMORY_TO_WIPER, X9258_XFR_WIPER_TO_MEMORY,
      X9258_GLOBAL_XFR_MEMORY_TO_WIPER, X9258_GLOBAL_XFR_WIPER_TO_MEMORY, X9258_INC_DEC_WIPER]; rfl)
  | setMemory a m v =>
    have ha : a < 4 := h.1 a rfl
    have hm : m < 4 := h.2 m rfl
    simp only [wiperOf, Option.some.injEq] at hw
    subst hw
    interval_cases a <;> interval_cases m <;>
      (simp only [instructionOf, X9258_READ_WIPER, X9258_WRITE_WIPER, X9258_READ_MEMORY,
      X9258_WRITE_MEMORY, X9258_XFR_MEMORY_TO_WIPER, X9258_XFR_WIPER_TO_MEMORY,
      X9258_GLOBAL_XFR_MEMORY_TO_WIPER, X9258_GLOBAL_XFR_WIPER_TO_MEMORY, X9258_INC_DEC_WIPER]; rfl)
  | xfrMemoryToWiper a m =>
    have ha : a < 4 := h.1 a rfl
    have hm : m < 4 := h.2 m rfl
    simp only [wiperOf, Option.some.injEq] at hw
    subst hw
    interval_cases a <;> interval_cases m <;>
      (simp only [instructionOf, X9258_READ_WIPER, X9258_WRITE_WIPER, X9258_READ_MEMORY,
      X9258_WRITE_MEMORY, X9258_XFR_MEMORY_TO_WIPER, X9258_XFR_WIPER_TO_MEMORY,
      X9258_GLOBAL_XFR_MEMORY_TO_WIPER, X9258_GLOBAL_XFR_WIPER_TO_MEMORY, X9258_INC_DEC_WIPER]; rfl)
  | xfrWiperToMemory a m =>
    have ha : a < 4 := h.1 a rfl
    have hm : m < 4 := h.2 m rfl
    simp only [wiperOf, Option.some.injEq] at hw
    subst hw
    interval_cases a <;> interval_cases m <;>
      (simp only [instructionOf, X9258_READ_WIPER, X9258_WRITE_WIPER, X9258_READ_MEMORY,
      X9258_WRITE_MEMORY, X9258_XFR_MEMORY_TO_WIPER, X9258_XFR_WIPER_TO_MEMORY,
      X9258_GLOBAL_XFR_MEMORY_TO_WIPER, X9258_GLOBAL_XFR_WIPER_TO_MEMORY, X9258_INC_DEC_WIPER]; rfl)
  | globalXfrMemoryToWiper m => simp [wiperOf] at hw
  | globalXfrWiperToMemory m => simp [wiperOf] at hw
  | enableIncDecWiper a x =>
    have ha : a < 4 := h.1 a rfl
    simp only [wiperOf, Option.some.injEq] at hw
    subst hw
    interval_cases a <;>
      (simp only [instructionOf, X9258_READ_WIPER, X9258_WRITE_WIPER, X9258_READ_MEMORY,
      X9258_WRITE_MEMORY, X9258_XFR_MEMORY_TO_WIPER, X9258_XFR_WIPER_TO_MEMORY,
      X9258_GLOBAL_XFR_MEMORY_TO_WIPER, X9258_GLOBAL_XFR_WIPER_TO_MEMORY, X9258_INC_DEC_WIPER]; rfl)

/-- A memory index in `0..3` is bits 2 and 3 of the instruction byte. -/
theorem instruction_memory (op : Op) (h : IndicesInRange op) (m : Nat)
    (hm : memoryOf op = some m) : (instructionOf op >>> 2) &&& 3 = m := by
  cases op with
  | getWiper a => simp [memoryOf] at hm
  | setWiper a v => simp [memoryOf] at hm
  | getMemory a b =>
    have ha : a < 4 := h.1 a rfl
    have hb : b < 4 := h.2 b rfl
    simp only [memoryOf, Option.some.injEq] at hm
    subst hm
    interval_cases a <;> interval_cases b <;>
      (simp only [instructionOf, X9258_READ_WIPER, X9258_WRITE_WIPER, X9258_READ_MEMORY,
      X9258_WRITE_MEMORY, X9258_XFR_MEMORY_TO_WIPER, X9258_XFR_WIPER_TO_MEMORY,
      X9258_GLOBAL_XFR_MEMORY_TO_WIPER, X9258_GLOBAL_XFR_WIPER_TO_MEMORY, X9258_INC_DEC_WIPER]; rfl)
  | setMemory a b v =>
    have ha : a < 4 := h.1 a rfl
    have hb : b < 4 := h.2 b rfl
    simp only [memoryOf, Option.some.injEq] at hm
    subst hm
    interval_cases a <;> interval_cases b <;>
      (simp only [instructionOf, X9258_READ_WIPER, X9258_WRITE_WIPER, X9258_READ_MEMORY,
      X9258_WRITE_MEMORY, X9258_XFR_MEMORY_TO_WIPER, X9258_XFR_WIPER_TO_MEMORY,
      X9258_GLOBAL_XFR_MEMORY_TO_WIPER, X9258_GLOBAL_XFR_WIPER_TO_MEMORY, X9258_INC_DEC_WIPER]; rfl)
  | xfrMemoryToWiper a b =>
    have ha : a < 4 := h.1 a rfl
    have hb : b < 4 := h.2 b rfl
    simp only [memoryOf, Option.some.injEq] at hm
    subst hm
    interval_cases a <;> interval_cases b <;>
      (simp only [instructionOf, X9258_READ_WIPER, X9258_WRITE_WIPER, X9258_READ_MEMORY,
      X9258_WRITE_MEMORY, X9258_XFR_MEMORY_TO_WIPER, X9258_XFR_WIPER_TO_MEMORY,
      X9258_GLOBAL_XFR_MEMORY_TO_WIPER, X9258_GLOBAL_XFR_WIPER_TO_MEMORY, X9258_INC_DEC_WIPER]; rfl)
  | xfrWiperToMemory a b =>
    have ha : a < 4 := h.1 a rfl
    have hb : b < 4 := h.2 b rfl
    simp only [memoryOf, Option.some.injEq] at hm
    subst hm
    interval_cases a <;> interval_cases b <;>
      (simp only [instructionOf, X9258_READ_WIPER, X9258_WRITE_WIPER, X9258_READ_MEMORY,
      X9258_WRITE_MEMORY, X9258_XFR_MEMORY_TO_WIPER, X9258_XFR_WIPER_TO_MEMORY,
      X9258_GLOBAL_XFR_MEMORY_TO_WIPER, X9258_GLOBAL_XFR_WIPER_TO_MEMORY, X9258_INC_DEC_WIPER]; rfl)
  | globalXfrMemoryToWiper b =>
    have hb : b < 4 := h.2 b rfl
    simp only [memoryOf, Option.some.injEq] at hm
    subst hm
    interval_cases b <;>
      (simp only [instructionOf, X9258_READ_WIPER, X9258_WRITE_WIPER, X9258_READ_MEMORY,
      X9258_WRITE_MEMORY, X9258_XFR_MEMORY_TO_WIPER, X9258_XFR_WIPER_TO_MEMORY,
      X9258_GLOBAL_XFR_MEMORY_TO_WIPER, X9258_GLOBAL_XFR_WIPER_TO_MEMORY, X9258_INC_DEC_WIPER]; rfl)
  | globalXfrWiperToMemory b =>
    have hb : b < 4 := h.2 b rfl
    simp only [memoryOf, Option.some.injEq] at hm
    subst hm
    interval_cases b <;>
      (simp only [instructionOf, X9258_READ_WIPER, X9258_WRITE_WIPER, X9258_READ_MEMORY,
      X9258_WRITE_MEMORY, X9258_XFR_MEMORY_TO_WIPER, X9258_XFR_WIPER_TO_MEMORY,
      X9258_GLOBAL_XFR_MEMORY_TO_WIPER, X9258_GLOBAL_XFR_WIPER_TO_MEMORY, X9258_INC_DEC_WIPER]; rfl)
  | enableIncDecWiper a x => simp [memoryOf] at hm

/-- C20: the instruction encoding is unambiguous.  Every public operation hands
`instructionOf` of the call to its transaction routine; for all operands the
upper nibble of that byte is the opcode nibble of the class of the operation;
the nine opcode nibbles are pairwise distinct; for indices in `0..3` the wiper
index is `byte & 3` and the memory index is `(byte >> 2) & 3`; hence two calls
with indices in `0..3` that produce the same instruction byte are of the same
class and have the same wiper index and the same memory index (as far as the
class takes them). -/
theorem instruction_encoding_unambiguous (op1 op2 : Op)
    (h1 : IndicesInRange op1) (h2 : IndicesInRange op2) :
    (∀ (dev : Device) (s : Machine) (op : Op),
      runOp dev op s = runWith dev op (instructionOf op) s) ∧
    (∀ op : Op, instructionOf op / 16 = opcodeOf (classOf op) / 16) ∧
    (∀ c1 c2 : OpClass, opcodeOf c1 / 16 = opcodeOf c2 / 16 → c1 = c2) ∧
    (∀ w, wiperOf op1 = some w → instructionOf op1 &&& 3 = w) ∧
    (∀ m, memoryOf op1 = some m → (instructionOf op1 >>> 2) &&& 3 = m) ∧
    (instructionOf op1 = instructionOf op2 →
      classOf op1 = classOf op2 ∧ wiperOf op1 = wiperOf op2 ∧ memoryOf op1 = memoryOf op2) := by
  refine ⟨fun dev s op => runOp_eq_runWith dev op s, instruction_nibble,
    opcode_nibble_injective, instruction_wiper op1 h1, instruction_memory op1 h1, ?_⟩
  intro heq
  have hc : classOf op1 = classOf op2 := by
    apply opcode_nibble_injective
    rw [← instruction_nibble, ← instruction_nibble, heq]
  have hw : ∀ w1 w2, wiperOf op1 = some w1 → wiperOf op2 = some w2 → w1 = w2 := by
    intro w1 w2 e1 e2
    rw [← instruction_wiper op1 h1 w1 e1, ← instruction_wiper op2 h2 w2 e2, heq]
  have hm : ∀ m1 m2, memoryOf op1 = some m1 → memoryOf op2 = some m2 → m1 = m2 := by
    intro m1 m2 e1 e2
    rw [← instruction_memory op1 h1 m1 e1, ← instruction_memory op2 h2 m2 e2, heq]
  refine ⟨hc, ?_, ?_⟩
  · cases op1 <;> cases op2 <;> simp only [classOf, reduceCtorEq] at hc <;>
      first
        | rfl
        | (simp only [wiperOf, Option.some.injEq]; exact hw _ _ rfl rfl)
  · cases op1 <;> cases op2 <;> simp only [classOf, reduceCtorEq] at hc <;>
      first
        | rfl
        | (simp only [memoryOf, Option.some.injEq]; exact hm _ _ rfl rfl)

/-- Witness for C20: `getMemory(1, 3)` and `setMemory(1, 3, 0x80)`. -/
theorem instruction_encoding_unambiguous_witness :
    IndicesInRange (.getMemory 1 3) ∧ IndicesInRange (.setMemory 1 3 0x80) ∧
    (instructionOf (.getMemory 1 3) >>> 2) &&& 3 = 3 :=
  ⟨⟨fun w hw => by cases hw; decide, fun m hm => by cases hm; decide⟩,
   ⟨fun w hw => by cases hw; decide, fun m hm => by cases hm; decide⟩,
   (instruction_encoding_unambiguous (.getMemory 1 3) (.setMemory 1 3 0x80)
      ⟨fun w hw => by cases hw; decide, fun m hm => by cases hm; decide⟩
      ⟨fun w hw => by cases hw; decide, fun m hm => by cases hm; decide⟩).2.2.2.2.1 3 rfl⟩

/-! ## The simulated device -/

/-- Running the simulated device over two histories in a row. -/
theorem simRun_append (d : Sim) (a b : List Event) :
    simRun d (a ++ b) = simRun (simRun d a) b := by
  simp [simRun, List.foldl_append]

/-- The bits of a byte, shifted in most significant first, give the byte back
as a `uint8_t`. -/
theorem shiftIn_bitsMSB (b : Nat) : shiftIn 0 (bitsMSB b) = b % 256 := by
  have h : bitsMSB b = bitsMSB (b % 256) := by
    have e : (256 : Nat) = 2 ^ 8 := by norm_num
    simp only [bitsMSB, e, Nat.testBit_mod_two_pow]
    simp
  rw [h]
  have hlt : b % 256 < 256 := Nat.mod_lt _ (by decide)
  generalize b % 256 = k at hlt
  interval_cases k <;> rfl

/-- From any state, the start condition puts the simulated device at the
beginning of the address byte and keeps the wiper values. -/
theorem sim_start (d : Sim) :
    simRun d startEvents =
      { scl := .HIGH, sda := .LOW, phase := .receiving 0, bits := [], ackClock := false,
        instr := 0, sent := 0, wiper := d.wiper } := by
  obtain ⟨scl, sda, phase, bits, ack, instr, sent, wiper⟩ := d
  cases scl <;> cases sda <;> cases phase <;>
    simp [simRun, startEvents, simStep] <;> split <;> simp

/-- A byte sent by the controller, seen by the simulated device at the start of
a byte: the eight bits are collected and the byte is completed at the end of
the acknowledgement clock. -/
theorem sim_byte (c x : Level) (k i n : Nat) (f : Nat → Nat) (b : Nat) (a : Level) :
    simRun { scl := c, sda := x, phase := .receiving k, bits := [], ackClock := false,
             instr := i, sent := n, wiper := f } (byteEvents b a) =
      simByteDone { scl := .LOW, sda := levelOfBit (b.testBit 0), phase := .receiving k,
                    bits := bitsMSB b, ackClock := true, instr := i, sent := n, wiper := f } := by
  cases c <;>
    simp [simRun, byteEvents, dataEvents, ackSampleEvents, bitsEvents, bitsMSB, bitEvents,
      clockPulse, simStep]

/-- The simulated device acknowledges every byte: at the acknowledgement sample
of a byte it presents a low level. -/
theorem sim_ack (c x : Level) (k i n : Nat) (f : Nat → Nat) (b : Nat) :
    simOut (simRun { scl := c, sda := x, phase := .receiving k, bits := [], ackClock := false,
                     instr := i, sent := n, wiper := f } (dataEvents b ++ ackSetupEvents))
      = Level.LOW := by
  cases c <;>
    simp [simRun, dataEvents, ackSetupEvents, bitsEvents, bitsMSB, bitEvents,
      clockPulse, simStep, simOut]

/-- The stop condition, seen by the simulated device with the clock low, ends
the transaction. -/
theorem sim_stop (x : Level) (p : SimPhase) (i n : Nat) (f : Nat → Nat) :
    simRun { scl := .LOW, sda := x, phase := p, bits := [], ackClock := false,
             instr := i, sent := n, wiper := f } stopEvents =
      { scl := .LOW, sda := .HIGH, phase := .idle, bits := [], ackClock := false,
        instr := i, sent := n, wiper := f } := by
  cases p <;> simp [simRun, stopEvents, simStep]

/-- The levels a device presents at successive samples, for the simulated
device, in terms of its state. -/
theorem presented_simDevice (init : Nat → Nat) (n : Nat) :
    ∀ h : List Event,
      presented (simDevice init) h n = simPresented (simRun (simInit init) h) n := by
  induction n with
  | zero => intro h; rfl
  | succ n ih =>
    intro h
    simp only [presented, simPresented]
    rw [ih, simRun_append]
    rfl

/-- While it sends, the simulated device presents the bits of the addressed
wiper, most significant first. -/
theorem sim_sending (x : Level) (i : Nat) (f : Nat → Nat) :
    simPresented { scl := .LOW, sda := x, phase := .sending, bits := [], ackClock := false,
                   instr := i, sent := 0, wiper := f } 8 = bitsMSB (f (i % 4)) := by
  simp [simPresented, simRun, sampleEvents, clockPulse, simStep, simOut, bitsMSB]

/-- State of the simulated device after the start condition of a call made
after history `t`. -/
theorem sim_after_start (init : Nat → Nat) (t : List Event) :
    simRun (simInit init) (t ++ Event.noInterrupts :: startEvents) =
      { scl := .HIGH, sda := .LOW, phase := .receiving 0, bits := [], ackClock := false,
        instr := 0, sent := 0, wiper := (simRun (simInit init) t).wiper } := by
  have e : t ++ Event.noInterrupts :: startEvents = (t ++ [Event.noInterrupts]) ++ startEvents := by
    simp
  rw [e, simRun_append, sim_start, simRun_append]
  simp [simRun, simStep]

/-- State of the simulated device after the address byte. -/
theorem sim_after_address (init : Nat → Nat) (t : List Event) (a : Nat) (x : Level) :
    simRun (simInit init) (t ++ Event.noInterrupts :: (startEvents ++ byteEvents a x)) =
      { scl := .LOW, sda := levelOfBit (a.testBit 0), phase := .receiving 1, bits := [],
        ackClock := false, instr := 0, sent := 0,
        wiper := (simRun (simInit init) t).wiper } := by
  have e : t ++ Event.noInterrupts :: (startEvents ++ byteEvents a x) =
      (t ++ Event.noInterrupts :: startEvents) ++ byteEvents a x := by simp
  rw [e, simRun_append, sim_after_start, sim_byte]
  simp [simByteDone]

/-- State of the simulated device after an instruction byte that is not a
read-wiper instruction. -/
theorem sim_after_instruction (init : Nat → Nat) (t : List Event) (a i : Nat) (x y : Level)
    (hi : i % 256 / 16 ≠ X9258_READ_WIPER / 16) :
    simRun (simInit init)
        (t ++ Event.noInterrupts :: (startEvents ++ (byteEvents a x ++ byteEvents i y))) =
      { scl := .LOW, sda := levelOfBit (i.testBit 0), phase := .receiving 2, bits := [],
        ackClock := false, instr := i % 256, sent := 0,
        wiper := (simRun (simInit init) t).wiper } := by
  have e : t ++ Event.noInterrupts :: (startEvents ++ (byteEvents a x ++ byteEvents i y)) =
      (t ++ Event.noInterrupts :: (startEvents ++ byteEvents a x)) ++ byteEvents i y := by simp
  rw [e, simRun_append, sim_after_address, sim_byte]
  simp [simByteDone, shiftIn_bitsMSB, hi]

/-- State of the simulated device after a read-wiper instruction byte: it
sends the addressed wiper. -/
theorem sim_after_read_instruction (init : Nat → Nat) (t : List Event) (a i : Nat)
    (x y : Level) (hi : i % 256 / 16 = X9258_READ_WIPER / 16) :
    simRun (simInit init)
        (t ++ Event.noInterrupts :: (startEvents ++ (byteEvents a x ++ byteEvents i y))) =
      { scl := .LOW, sda := levelOfBit (i.testBit 0), phase := .sending, bits := [],
        ackClock := false, instr := i % 256, sent := 0,
        wiper := (simRun (simInit init) t).wiper } := by
  have e : t ++ Event.noInterrupts :: (startEvents ++ (byteEvents a x ++ byteEvents i y)) =
      (t ++ Event.noInterrupts :: (startEvents ++ byteEvents a x)) ++ byteEvents i y := by simp
  rw [e, simRun_append, sim_after_address, sim_byte]
  simp [simByteDone, shiftIn_bitsMSB, hi]

/-- Wiper values of the simulated device after a complete write-wiper
transaction: the addressed wiper holds the value byte, the others are
unchanged. -/
theorem sim_after_write (init : Nat → Nat) (t : List Event) (a i v : Nat) (x y z : Level)
    (hi : i % 256 / 16 = X9258_WRITE_WIPER / 16) :
    (simRun (simInit init)
        (t ++ Event.noInterrupts :: (startEvents ++ (byteEvents a x ++ (byteEvents i y ++
          (byteEvents v z ++ (stopEvents ++ [Event.interrupts]))))))).wiper =
      fun k => if k = i % 256 % 4 then v % 256 else (simRun (simInit init) t).wiper k := by
  have hr : i % 256 / 16 ≠ X9258_READ_WIPER / 16 := by
    rw [hi]
    decide
  have e : t ++ Event.noInterrupts :: (startEvents ++ (byteEvents a x ++ (byteEvents i y ++
        (byteEvents v z ++ (stopEvents ++ [Event.interrupts]))))) =
      (t ++ Event.noInterrupts :: (startEvents ++ (byteEvents a x ++ byteEvents i y))) ++
        (byteEvents v z ++ (stopEvents ++ [Event.interrupts])) := by simp
  rw [e, simRun_append, sim_after_instruction init t a i x y hr, simRun_append, sim_byte]
  simp only [simByteDone, shiftIn_bitsMSB, hi, if_true]
  rw [simRun_append, sim_stop]
  simp [simRun, simStep]

/-- The simulated device acknowledges the address byte and the instruction
byte of every transaction. -/
theorem sim_acknowledges (init : Nat → Nat) (t : List Event) (a i : Nat) (x : Level) :
    ackLevel (simDevice init) (t ++ Event.noInterrupts :: startEvents) a = Level.LOW ∧
    ackLevel (simDevice init)
      (t ++ Event.noInterrupts :: (startEvents ++ byteEvents a x)) i = Level.LOW := by
  refine ⟨?_, ?_⟩
  · simp only [ackLevel, simDevice]
    rw [simRun_append, sim_after_start, sim_ack]
  · simp only [ackLevel, simDevice]
    rw [simRun_append, sim_after_address, sim_ack]

/-- The simulated device acknowledges the value byte of a write transaction. -/
theorem sim_acknowledges_value (init : Nat → Nat) (t : List Event) (a i v : Nat) (x y : Level)
    (hi : i % 256 / 16 ≠ X9258_READ_WIPER / 16) :
    ackLevel (simDevice init)
      (t ++ Event.noInterrupts :: (startEvents ++ (byteEvents a x ++ byteEvents i y))) v
      = Level.LOW := by
  simp only [ackLevel, simDevice]
  rw [simRun_append, sim_after_instruction init t a i x y hi, sim_ack]

/-- After a read-wiper instruction the simulated device presents, at the eight
samples of the controller, the bits of the addressed wiper. -/
theorem sim_presents_wiper (init : Nat → Nat) (t : List Event) (a i : Nat) (x y : Level)
    (hi : i % 256 / 16 = X9258_READ_WIPER / 16) :
    presented (simDevice init)
        (t ++ Event.noInterrupts ::
          (startEvents ++ (byteEvents a x ++ (byteEvents i y ++ recvSetupEvents)))) 8 =
      bitsMSB ((simRun (simInit init) t).wiper (i % 256 % 4)) := by
  have e : t ++ Event.noInterrupts ::
        (startEvents ++ (byteEvents a x ++ (byteEvents i y ++ recvSetupEvents))) =
      (t ++ Event.noInterrupts :: (startEvents ++ (byteEvents a x ++ byteEvents i y))) ++
        recvSetupEvents := by simp
  rw [presented_simDevice, e, simRun_append, sim_after_read_instruction init t a i x y hi]
  have hs : simRun
      { scl := .LOW, sda := levelOfBit (i.testBit 0), phase := .sending, bits := [],
        ackClock := false, instr := i % 256, sent := 0,
        wiper := (simRun (simInit init) t).wiper } recvSetupEvents =
      { scl := .LOW, sda := levelOfBit (i.testBit 0), phase := .sending, bits := [],
        ackClock := false, instr := i % 256, sent := 0,
        wiper := (simRun (simInit init) t).wiper } := by
    simp [simRun, recvSetupEvents, simStep]
  rw [hs, sim_sending]

/-- State in which `write_value` returns when all three bytes are
acknowledged. -/
theorem write_value_acknowledged (dev : Device) (i v : Nat) (s : Machine)
    (h1 : ackLevel dev (s.trace ++ Event.noInterrupts :: startEvents) s.device_address
          = Level.LOW)
    (h2 : ackLevel dev
            (s.trace ++ Event.noInterrupts :: (startEvents ++ byteEvents s.device_address .LOW))
            i = Level.LOW)
    (h3 : ackLevel dev
            (s.trace ++ Event.noInterrupts ::
              (startEvents ++ (byteEvents s.device_address .LOW ++ byteEvents i .LOW)))
            v = Level.LOW) :
    write_value dev i v s =
      { s with interruptsEnabled := true, sclMode := .OUTPUT, sdaMode := .OUTPUT,
               sclLevel := .LOW, sdaLevel := .HIGH,
               trace := s.trace ++ (Event.noInterrupts ::
                 (startEvents ++ (byteEvents s.device_address .LOW ++ (byteEvents i .LOW ++
                   (byteEvents v .LOW ++ (stopEvents ++ [Event.interrupts])))))) } := by
  simp [write_value, noInterrupts, interrupts, send_start_eq, send_data_eq, send_stop_eq,
    h1, h2, h3]

/-- Value returned by `read_value` when both bytes are acknowledged: the eight
levels presented by the device, shifted in first level first. -/
theorem read_value_acknowledged (dev : Device) (i : Nat) (s : Machine)
    (h1 : ackLevel dev (s.trace ++ Event.noInterrupts :: startEvents) s.device_address
          = Level.LOW)
    (h2 : ackLevel dev
            (s.trace ++ Event.noInterrupts :: (startEvents ++ byteEvents s.device_address .LOW))
            i = Level.LOW) :
    (read_value dev i s).1 =
      shiftIn 0 (presented dev
        (s.trace ++ Event.noInterrupts ::
          (startEvents ++ (byteEvents s.device_address .LOW ++
            (byteEvents i .LOW ++ recvSetupEvents)))) 8) := by
  simp [read_value, noInterrupts, interrupts, send_start_eq, send_data_eq, send_stop_eq,
    recv_data_eq, h1, h2]

/-- The instruction bytes of `setWiper` and `getWiper` for a wiper index in
`0..3`. -/
theorem wiper_instructions (w : Nat) (hw : w < 4) :
    (X9258_WRITE_WIPER ||| (w &&& 0x03)) % 256 = 0xA0 + w ∧
    (X9258_READ_WIPER ||| (w &&& 0x03)) % 256 = 0x90 + w := by
  interval_cases w <;> exact ⟨rfl, rfl⟩

/-- State in which `setWiper` returns against the simulated device, for a wiper
index in `0..3`. -/
theorem setWiper_simDevice (init : Nat → Nat) (w v : Nat) (s : Machine) (hw : w < 4) :
    setWiper (simDevice init) w v s =
      { s with interruptsEnabled := true, sclMode := .OUTPUT, sdaMode := .OUTPUT,
               sclLevel := .LOW, sdaLevel := .HIGH,
               trace := s.trace ++ (Event.noInterrupts ::
                 (startEvents ++ (byteEvents s.device_address .LOW ++
                   (byteEvents (0xA0 + w) .LOW ++
                     (byteEvents v .LOW ++ (stopEvents ++ [Event.interrupts])))))) } := by
  have hi : (0xA0 + w) % 256 / 16 ≠ X9258_READ_WIPER / 16 := by
    interval_cases w <;> decide
  have ha := sim_acknowledges init s.trace s.device_address (0xA0 + w) .LOW
  have hv := sim_acknowledges_value init s.trace s.device_address (0xA0 + w) v .LOW .LOW hi
  simp only [setWiper]
  rw [(wiper_instructions w hw).1]
  exact write_value_acknowledged (simDevice init) (0xA0 + w) v s ha.1 ha.2 hv

/-- Value `getWiper` returns against the simulated device, for a wiper index
in `0..3`: the value the device holds for that wiper after the history so
far. -/
theorem getWiper_simDevice (init : Nat → Nat) (w : Nat) (s : Machine) (hw : w < 4) :
    (getWiper (simDevice init) w s).1 = (simRun (simInit init) s.trace).wiper w % 256 := by
  have hi : (0x90 + w) % 256 / 16 = X9258_READ_WIPER / 16 := by
    interval_cases w <;> decide
  have h4 : (0x90 + w) % 256 % 4 = w := by
    interval_cases w <;> decide
  have ha := sim_acknowledges init s.trace s.device_address (0x90 + w) .LOW
  simp only [getWiper]
  rw [(wiper_instructions w hw).2,
    read_value_acknowledged (simDevice init) (0x90 + w) s ha.1 ha.2,
    sim_presents_wiper init s.trace s.device_address (0x90 + w) .LOW .LOW hi, h4,
    shiftIn_bitsMSB]

/-- Wiper value the simulated device holds after `setWiper`, for a wiper index
in `0..3`. -/
theorem sim_wiper_after_setWiper (init : Nat → Nat) (w v : Nat) (s : Machine) (hw : w < 4) :
    (simRun (simInit init) (setWiper (simDevice init) w v s).trace).wiper w = v % 256 := by
  have hi : (0xA0 + w) % 256 / 16 = X9258_WRITE_WIPER / 16 := by
    interval_cases w <;> decide
  have h4 : (0xA0 + w) % 256 % 4 = w := by
    interval_cases w <;> decide
  rw [setWiper_simDevice init w v s hw]
  simp only []
  rw [sim_after_write init s.trace s.device_address (0xA0 + w) v .LOW .LOW .LOW hi, h4]
  simp

/-- C11: for every wiper index `w` in `0..3` and every value `v` in `0..255`,
against the simulated device (which acknowledges every byte and echoes the
last value written to the addressed wiper), whatever its initial wiper values
and whatever the state of the controller, `setWiper(w, v)` followed by
`getWiper(w)` returns `v`. -/
theorem setWiper_then_getWiper (init : Nat → Nat) (s : Machine) (w v : Nat)
    (hw : w < 4) (hv : v < 256) :
    (getWiper (simDevice init) w (setWiper (simDevice init) w v s)).1 = v := by
  rw [getWiper_simDevice init w _ hw, sim_wiper_after_setWiper init w v s hw]
  omega

/-- Witness for C11: wiper 2 and value `0xB2` on a controller that was just set
up, all wipers of the device being 0 before. -/
theorem setWiper_then_getWiper_witness :
    (2 : Nat) < 4 ∧ (0xB2 : Nat) < 256 ∧
    (getWiper (simDevice (fun _ => 0)) 2 (setWiper (simDevice (fun _ => 0)) 2 0xB2 ready)).1
      = 0xB2 :=
  ⟨by decide, by decide,
   setWiper_then_getWiper (fun _ => 0) ready 2 0xB2 (by decide) (by decide)⟩

/-- C17: for every wiper index `w` in `0..3` and every value `v` in `0..255`,
against the simulated device, `setWiper(w, v)` twice and then `getWiper(w)`
returns `v`.  The second `setWiper` records the same events as the first and
returns in the same controller state (apart from the recorded trace): nothing
is accumulated in the controller across the calls. -/
theorem setWiper_twice_then_getWiper (init : Nat → Nat) (s : Machine) (w v : Nat)
    (hw : w < 4) (hv : v < 256) :
    (getWiper (simDevice init) w
      (setWiper (simDevice init) w v (setWiper (simDevice init) w v s))).1 = v ∧
    callEvents (setWiper (simDevice init) w v s)
        (setWiper (simDevice init) w v (setWiper (simDevice init) w v s)) =
      callEvents s (setWiper (simDevice init) w v s) ∧
    { setWiper (simDevice init) w v (setWiper (simDevice init) w v s) with trace := [] } =
      { setWiper (simDevice init) w v s with trace := [] } ∧
    (setWiper (simDevice init) w v s).device_address = s.device_address := by
  refine ⟨?_, ?_, ?_, ?_⟩
  · rw [getWiper_simDevice init w _ hw, sim_wiper_after_setWiper init w v _ hw]
    omega
  · have e1 := setWiper_simDevice init w v s hw
    have e2 := setWiper_simDevice init w v (setWiper (simDevice init) w v s) hw
    rw [callEvents_append _ _ _ (congrArg Machine.trace e2),
      callEvents_append _ _ _ (congrArg Machine.trace e1), e1]
  · rw [setWiper_simDevice init w v (setWiper (simDevice init) w v s) hw,
      setWiper_simDevice init w v s hw]
  · rw [setWiper_simDevice init w v s hw]

/-- Witness for C17: wiper 3 and value `0x5A` on a controller that was just set
up, all wipers of the device being 7 before. -/
theorem setWiper_twice_then_getWiper_witness :
    (3 : Nat) < 4 ∧ (0x5A : Nat) < 256 ∧
    (getWiper (simDevice (fun _ => 7)) 3
      (setWiper (simDevice (fun _ => 7)) 3 0x5A
        (setWiper (simDevice (fun _ => 7)) 3 0x5A ready))).1 = 0x5A :=
  ⟨by decide, by decide,
   (setWiper_twice_then_getWiper (fun _ => 7) ready 3 0x5A (by decide) (by decide)).1⟩

end X9258
